import Mathlib

/-!
Verification of the Tasmotic firmware acquisition, caching and lifecycle
subsystem.  The Lean definitions below are a shallow embedding of the Python
services `firmware_cache.py`, `firmware_manager.py`, `community_firmware.py`
and `background_scheduler.py`: pure computations are translated to Lean
functions, the SQLite tables and the cache directory become explicit state
(association lists), machine integers are `Nat` with explicit reduction
modulo `2 ^ 32` where the hash algorithms overflow, and the `datetime.now()`
values threaded through the code become explicit `Nat` / `String` parameters.
-/

namespace Tasmotic

/-! ## 32-bit word helpers (for hashlib.md5 / hashlib.sha256) -/

/-- Reduce a natural number to a 32-bit word. -/
def w32 (x : Nat) : Nat := x % 4294967296

/-- Bitwise complement on 32-bit words. -/
def not32 (x : Nat) : Nat := Nat.xor (w32 x) 4294967295

/-- Left rotation of a 32-bit word by `s` bits (`0 ≤ s < 32`). -/
def rotl32 (x s : Nat) : Nat :=
  w32 (Nat.lor (w32 (Nat.shiftLeft x s)) (Nat.shiftRight (w32 x) (32 - s)))

/-- Right rotation of a 32-bit word by `s` bits (`0 ≤ s < 32`). -/
def rotr32 (x s : Nat) : Nat := rotl32 x (32 - s)

/-- Little-endian byte serialisation of `x` on `n` bytes. -/
def leBytes : Nat → Nat → List Nat
  | 0, _ => []
  | n + 1, x => (x % 256) :: leBytes n (x / 256)

/-- Big-endian byte serialisation of `x` on `n` bytes. -/
def beBytes (n x : Nat) : List Nat := (leBytes n x).reverse

/-- Lower-case hexadecimal digit. -/
def hexDigit (n : Nat) : Char :=
  if n < 10 then Char.ofNat (48 + n) else Char.ofNat (87 + n)

/-- Two lower-case hex characters for one byte (as in `hexdigest()`). -/
def hexByte (b : Nat) : List Char := [hexDigit (b / 16 % 16), hexDigit (b % 16)]

/-- Hex string of a byte list, as produced by `hexdigest()`. -/
def bytesToHex (bs : List Nat) : String := String.mk (bs.flatMap hexByte)

/-- UTF-8 encoding of one character (Python `str.encode()`). -/
def charUtf8 (c : Char) : List Nat :=
  let n := c.toNat
  if n < 128 then [n]
  else if n < 2048 then [192 + n / 64, 128 + n % 64]
  else if n < 65536 then [224 + n / 4096, 128 + n / 64 % 64, 128 + n % 64]
  else [240 + n / 262144, 128 + n / 4096 % 64, 128 + n / 64 % 64, 128 + n % 64]

/-- UTF-8 bytes of a string (Python `str.encode()`). -/
def utf8Bytes (s : String) : List Nat := s.data.flatMap charUtf8

/-- Split a byte list into successive 64-byte blocks (structural recursion
on a fuel bound so the kernel can evaluate it; `l.length` fuel always
suffices since every step consumes at least one byte). -/
def chunk64Aux : Nat → List Nat → List (List Nat)
  | _, [] => []
  | 0, _ => []
  | fuel + 1, b :: rest => ((b :: rest).take 64) :: chunk64Aux fuel ((b :: rest).drop 64)

def chunk64 (l : List Nat) : List (List Nat) := chunk64Aux l.length l

/-- The `i`-th little-endian 32-bit word of a 64-byte block. -/
def leWord (bs : List Nat) (i : Nat) : Nat :=
  bs.getD (4 * i) 0 + 256 * bs.getD (4 * i + 1) 0 +
    65536 * bs.getD (4 * i + 2) 0 + 16777216 * bs.getD (4 * i + 3) 0

/-- The `i`-th big-endian 32-bit word of a 64-byte block. -/
def beWord (bs : List Nat) (i : Nat) : Nat :=
  16777216 * bs.getD (4 * i) 0 + 65536 * bs.getD (4 * i + 1) 0 +
    256 * bs.getD (4 * i + 2) 0 + bs.getD (4 * i + 3) 0

/-- MD5 / SHA padding: append `0x80`, zeros to 56 mod 64, then the 8-byte
bit length (little-endian for MD5, big-endian for SHA-256). -/
def padTail (len : Nat) : Nat := (64 + 56 - (len + 1) % 64) % 64

def md5Pad (msg : List Nat) : List Nat :=
  msg ++ [128] ++ List.replicate (padTail msg.length) 0 ++
    leBytes 8 (msg.length * 8 % 18446744073709551616)

def sha256Pad (msg : List Nat) : List Nat :=
  msg ++ [128] ++ List.replicate (padTail msg.length) 0 ++
    beBytes 8 (msg.length * 8 % 18446744073709551616)

/-! ## MD5 (hashlib.md5) -/

/-- The 64 MD5 sine-derived constants. -/
def md5K : List Nat :=
  [3614090360, 3905402710, 606105819, 3250441966, 4118548399,
   1200080426, 2821735955, 4249261313, 1770035416, 2336552879,
   4294925233, 2304563134, 1804603682, 4254626195, 2792965006,
   1236535329, 4129170786, 3225465664, 643717713, 3921069994,
   3593408605, 38016083, 3634488961, 3889429448, 568446438,
   3275163606, 4107603335, 1163531501, 2850285829, 4243563512,
   1735328473, 2368359562, 4294588738, 2272392833, 1839030562,
   4259657740, 2763975236, 1272893353, 4139469664, 3200236656,
   681279174, 3936430074, 3572445317, 76029189, 3654602809,
   3873151461, 530742520, 3299628645, 4096336452, 1126891415,
   2878612391, 4237533241, 1700485571, 2399980690, 4293915773,
   2240044497, 1873313359, 4264355552, 2734768916, 1309151649,
   4149444226, 3174756917, 718787259, 3951481745]

/-- The 64 MD5 per-round left-rotation amounts. -/
def md5S : List Nat :=
  [7, 12, 17, 22, 7, 12, 17, 22, 7, 12, 17, 22, 7, 12, 17, 22,
   5, 9, 14, 20, 5, 9, 14, 20, 5, 9, 14, 20, 5, 9, 14, 20,
   4, 11, 16, 23, 4, 11, 16, 23, 4, 11, 16, 23, 4, 11, 16, 23,
   6, 10, 15, 21, 6, 10, 15, 21, 6, 10, 15, 21, 6, 10, 15, 21]

/-- One MD5 round on state `(a, b, c, d)` with message words `m`. -/
def md5Round (m : Nat → Nat) (st : Nat × Nat × Nat × Nat) (i : Nat) :
    Nat × Nat × Nat × Nat :=
  let (a, b, c, d) := st
  let fg : Nat × Nat :=
    if i < 16 then (Nat.lor (Nat.land b c) (Nat.land (not32 b) d), i)
    else if i < 32 then (Nat.lor (Nat.land d b) (Nat.land (not32 d) c), (5 * i + 1) % 16)
    else if i < 48 then (Nat.xor (Nat.xor b c) d, (3 * i + 5) % 16)
    else (Nat.xor c (Nat.lor b (not32 d)), 7 * i % 16)
  let f := w32 (fg.1 + a + md5K.getD i 0 + m fg.2)
  (d, w32 (b + rotl32 f (md5S.getD i 0)), b, c)

/-- Process one 64-byte block into the running MD5 state. -/
def md5Block (st : Nat × Nat × Nat × Nat) (block : List Nat) :
    Nat × Nat × Nat × Nat :=
  let m := leWord block
  let r := (List.range 64).foldl (md5Round m) st
  (w32 (st.1 + r.1), w32 (st.2.1 + r.2.1), w32 (st.2.2.1 + r.2.2.1),
   w32 (st.2.2.2 + r.2.2.2))

/-- MD5 digest (16 bytes) of a byte list. -/
def md5Bytes (msg : List Nat) : List Nat :=
  let st := (chunk64 (md5Pad msg)).foldl md5Block
    (1732584193, 4023233417, 2562383102, 271733878)
  leBytes 4 st.1 ++ leBytes 4 st.2.1 ++ leBytes 4 st.2.2.1 ++ leBytes 4 st.2.2.2

/-- `hashlib.md5(s.encode()).hexdigest()`. -/
def md5Hex (s : String) : String := bytesToHex (md5Bytes (utf8Bytes s))

/-! ## SHA-256 (hashlib.sha256) -/

/-- The 64 SHA-256 round constants. -/
def sha256K : List Nat :=
  [1116352408, 1899447441, 3049323471, 3921009573, 961987163,
   1508970993, 2453635748, 2870763221, 3624381080, 310598401,
   607225278, 1426881987, 1925078388, 2162078206, 2614888103,
   3248222580, 3835390401, 4022224774, 264347078, 604807628,
   770255983, 1249150122, 1555081692, 1996064986, 2554220882,
   2821834349, 2952996808, 3210313671, 3336571891, 3584528711,
   113926993, 338241895, 666307205, 773529912, 1294757372,
   1396182291, 1695183700, 1986661051, 2177026350, 2456956037,
   2730485921, 2820302411, 3259730800, 3345764771, 3516065817,
   3600352804, 4094571909, 275423344, 430227734, 506948616,
   659060556, 883997877, 958139571, 1322822218, 1537002063,
   1747873779, 1955562222, 2024104815, 2227730452, 2361852424,
   2428436474, 2756734187, 3204031479, 3329325298]

/-- SHA-256 message schedule extension step. -/
def sha256Extend (w : List Nat) (i : Nat) : List Nat :=
  let g := fun j => w.getD j 0
  let s0 := Nat.xor (Nat.xor (rotr32 (g (i - 15)) 7) (rotr32 (g (i - 15)) 18))
    (Nat.shiftRight (g (i - 15)) 3)
  let s1 := Nat.xor (Nat.xor (rotr32 (g (i - 2)) 17) (rotr32 (g (i - 2)) 19))
    (Nat.shiftRight (g (i - 2)) 10)
  w ++ [w32 (g (i - 16) + s0 + g (i - 7) + s1)]

/-- Full 64-entry SHA-256 message schedule of one block. -/
def sha256Schedule (block : List Nat) : List Nat :=
  ((List.range 48).map (· + 16)).foldl sha256Extend
    ((List.range 16).map (beWord block))

/-- One SHA-256 compression round. -/
def sha256Round (w : List Nat)
    (st : Nat × Nat × Nat × Nat × Nat × Nat × Nat × Nat) (i : Nat) :
    Nat × Nat × Nat × Nat × Nat × Nat × Nat × Nat :=
  let (a, b, c, d, e, f, g, h) := st
  let s1 := Nat.xor (Nat.xor (rotr32 e 6) (rotr32 e 11)) (rotr32 e 25)
  let ch := Nat.xor (Nat.land e f) (Nat.land (not32 e) g)
  let t1 := w32 (h + s1 + ch + sha256K.getD i 0 + w.getD i 0)
  let s0 := Nat.xor (Nat.xor (rotr32 a 2) (rotr32 a 13)) (rotr32 a 22)
  let mj := Nat.xor (Nat.xor (Nat.land a b) (Nat.land a c)) (Nat.land b c)
  let t2 := w32 (s0 + mj)
  (w32 (t1 + t2), a, b, c, w32 (d + t1), e, f, g)

/-- Process one 64-byte block into the running SHA-256 state. -/
def sha256Block (st : Nat × Nat × Nat × Nat × Nat × Nat × Nat × Nat)
    (block : List Nat) : Nat × Nat × Nat × Nat × Nat × Nat × Nat × Nat :=
  let w := sha256Schedule block
  let r := (List.range 64).foldl (sha256Round w) st
  (w32 (st.1 + r.1), w32 (st.2.1 + r.2.1), w32 (st.2.2.1 + r.2.2.1),
   w32 (st.2.2.2.1 + r.2.2.2.1), w32 (st.2.2.2.2.1 + r.2.2.2.2.1),
   w32 (st.2.2.2.2.2.1 + r.2.2.2.2.2.1),
   w32 (st.2.2.2.2.2.2.1 + r.2.2.2.2.2.2.1),
   w32 (st.2.2.2.2.2.2.2 + r.2.2.2.2.2.2.2))

/-- SHA-256 digest (32 bytes) of a byte list. -/
def sha256Bytes (msg : List Nat) : List Nat :=
  let st := (chunk64 (sha256Pad msg)).foldl sha256Block
    (1779033703, 3144134277, 1013904242, 2773480762,
     1359893119, 2600822924, 528734635, 1541459225)
  beBytes 4 st.1 ++ beBytes 4 st.2.1 ++ beBytes 4 st.2.2.1 ++
    beBytes 4 st.2.2.2.1 ++ beBytes 4 st.2.2.2.2.1 ++
    beBytes 4 st.2.2.2.2.2.1 ++ beBytes 4 st.2.2.2.2.2.2.1 ++
    beBytes 4 st.2.2.2.2.2.2.2

/-- `hashlib.sha256(file_data).hexdigest()` on raw bytes. -/
def sha256Hex (bs : List Nat) : String := bytesToHex (sha256Bytes bs)

/-! ## Cache manager (`firmware_cache.py`, class `FirmwareCacheManager`)

The SQLite table `firmware_cache` becomes a list of `CacheEntry` keyed by
`firmware_id`; the cache directory and the temp-file area become an
association list from paths to file sizes.  A path is either
`FsPath.cache fid` — `os.path.join('/opt/app/data/firmware_cache',
f"{firmware_id}.bin")`, distinct ids give distinct paths since ids contain
no separators — or `FsPath.tmp n`, the fresh name handed out by
`tempfile.NamedTemporaryFile` (never inside the cache directory).
`datetime` values are seconds as `Int`; `timedelta(days=30)` is `2592000`.
The bytes streamed by `_download_file` are the `content` parameter of
`download_and_cache_firmware`; the file it writes holds exactly those
bytes, so `_verify_firmware_file`, which reads that file back, is applied
to `content`, and the disk map tracks each file's byte size (the quantity
`os.path.getsize` and `_get_cache_size` read). -/

/-- A filesystem path as used by the cache manager. -/
inductive FsPath where
  | tmp (n : Nat)
  | cache (fid : String)
deriving DecidableEq, Repr

/-- Whether a path lies inside `self.cache_dir` (what `os.walk` visits). -/
def FsPath.inCacheDir : FsPath → Bool
  | .tmp _ => false
  | .cache _ => true

/-- The filesystem: path ↦ size in bytes of the file stored there. -/
abbrev Disk := List (FsPath × Nat)

def diskHas (d : Disk) (p : FsPath) : Bool := d.any (fun e => e.1 == p)

def diskSizeAt (d : Disk) (p : FsPath) : Nat :=
  ((d.find? (fun e => e.1 == p)).map (fun e => e.2)).getD 0

/-- Create or overwrite the file at `p` with `sz` bytes. -/
def diskWrite (d : Disk) (p : FsPath) (sz : Nat) : Disk :=
  (d.filter (fun e => e.1 != p)) ++ [(p, sz)]

/-- `os.remove` (no-op here if the file is absent). -/
def diskRemove (d : Disk) (p : FsPath) : Disk := d.filter (fun e => e.1 != p)

/-- `_get_cache_size`: total bytes of the files under `self.cache_dir`. -/
def cacheDirSize (d : Disk) : Nat :=
  ((d.filter (fun e => e.1.inCacheDir)).map (fun e => e.2)).sum

/-- One row of the `firmware_cache` table (the `cached_at` audit column and
the separate `cache_stats` table play no role in any claim and are not
modelled). -/
structure CacheEntry where
  firmware_id : String
  local_path : FsPath
  download_url : String
  file_size : Nat
  md5_hash : String
  sha256_hash : String
  download_count : Nat
  last_accessed : Int
  verified : Bool
deriving DecidableEq, Repr

/-- The cache manager's persistent state: the index table plus the disk. -/
structure CacheState where
  db : List CacheEntry
  disk : Disk
deriving DecidableEq, Repr

/-- `self.max_cache_size = 2 * 1024 * 1024 * 1024`. -/
def maxCacheSize : Nat := 2147483648

/-- `self.cache_retention_days = 30`, in seconds. -/
def cacheRetentionSeconds : Int := 2592000

/-- `_verify_firmware_file`: minimum size, then the ESP32 magic
`E9 00 00 00` on the first four bytes, else the ESP8266 magic `E9` on the
first byte. -/
def verify_firmware_file (bytes : List Nat) : Bool :=
  if bytes.length < 100000 then false
  else
    let header := bytes.take 16
    if header.take 4 == [233, 0, 0, 0] then true
    else if header.getD 0 0 == 233 then true
    else false

/-- Filesystem/database events, in the order the code performs them. -/
inductive CacheEvent where
  | writeTemp (p : FsPath)
  | moveToCache (src dst : FsPath)
  | verifyFile (p : FsPath) (ok : Bool)
  | addDbEntry (fid : String)
  | removeFile (p : FsPath)
  | pruneDbEntry (fid : String)
  | bumpAccess (fid : String)
deriving DecidableEq, Repr

/-- `DELETE FROM firmware_cache WHERE firmware_id = ?`. -/
def removeFromCacheDb (db : List CacheEntry) (fid : String) : List CacheEntry :=
  db.filter (fun e => e.firmware_id != fid)

/-- `_add_to_cache_db`: `INSERT OR REPLACE` keyed on `firmware_id`; the
statement names neither `download_count` nor `cached_at`, so a replaced
row's counter resets to the column default `0`; `verified` is set `True`. -/
def addToCacheDb (db : List CacheEntry) (fid : String) (path : FsPath)
    (url : String) (sz : Nat) (md5h sha256h : String) (now : Int) :
    List CacheEntry :=
  removeFromCacheDb db fid ++
    [{ firmware_id := fid, local_path := path, download_url := url,
       file_size := sz, md5_hash := md5h, sha256_hash := sha256h,
       download_count := 0, last_accessed := now, verified := true }]

/-- `_update_access_time`: bump `last_accessed` and `download_count`. -/
def updateAccessTime (db : List CacheEntry) (fid : String) (now : Int) :
    List CacheEntry :=
  db.map (fun e =>
    if e.firmware_id == fid then
      { e with last_accessed := now, download_count := e.download_count + 1 }
    else e)

/-- `get_cached_firmware_path`: select the verified row; return its path if
the file exists, otherwise prune the stale row and report a miss. -/
def get_cached_firmware_path (s : CacheState) (fid : String) :
    Option FsPath × CacheState × List CacheEvent :=
  match s.db.find? (fun e => e.firmware_id == fid && e.verified) with
  | none => (none, s, [])
  | some e =>
      if diskHas s.disk e.local_path then (some e.local_path, s, [])
      else (none, { s with db := removeFromCacheDb s.db fid },
            [CacheEvent.pruneDbEntry fid])

/-- `download_and_cache_firmware`: on a hit, bump access stats and return
the cached path.  On a miss, stream to a temp file, `shutil.move` it into
the cache directory, and only then verify; on success record the
`CacheEntry` (hashes were computed incrementally over the stream), on
failure `os.remove` the already-moved file and return a miss (`None`). -/
def download_and_cache_firmware (s : CacheState) (fid url : String)
    (content : List Nat) (tmpName : Nat) (now : Int) :
    Option FsPath × CacheState × List CacheEvent :=
  match get_cached_firmware_path s fid with
  | (some p, s1, tr) =>
      (some p, { s1 with db := updateAccessTime s1.db fid now },
       tr ++ [CacheEvent.bumpAccess fid])
  | (none, s1, tr) =>
      let tmp := FsPath.tmp tmpName
      let d1 := diskWrite s1.disk tmp content.length
      let dst := FsPath.cache fid
      let d2 := diskWrite (diskRemove d1 tmp) dst content.length
      let ok := verify_firmware_file content
      let tr2 := tr ++ [CacheEvent.writeTemp tmp, CacheEvent.moveToCache tmp dst,
        CacheEvent.verifyFile dst ok]
      if ok then
        ((some dst),
         { db := addToCacheDb s1.db fid dst url content.length
             (bytesToHex (md5Bytes content)) (bytesToHex (sha256Bytes content)) now,
           disk := d2 },
         tr2 ++ [CacheEvent.addDbEntry fid])
      else
        (none, { db := s1.db, disk := diskRemove d2 dst },
         tr2 ++ [CacheEvent.removeFile dst])

/-- The `WHERE last_accessed < ? OR download_count = 0` eviction filter. -/
def evictionEligible (cutoff : Int) (e : CacheEntry) : Bool :=
  e.last_accessed < cutoff || e.download_count == 0

/-- `ORDER BY last_accessed ASC, download_count ASC`. -/
def candidateLE (a b : CacheEntry) : Bool :=
  a.last_accessed < b.last_accessed ||
    (a.last_accessed == b.last_accessed && a.download_count ≤ b.download_count)

/-- The candidate query of `cleanup_cache`. -/
def cleanupCandidates (db : List CacheEntry) (cutoff : Int) : List CacheEntry :=
  (db.filter (evictionEligible cutoff)).mergeSort candidateLE

/-- The eviction loop of `cleanup_cache`: before each removal, stop once
`current_size - removed_size` drops below 70% of the ceiling.  The Python
comparison is against the float `self.max_cache_size * 0.7`; for every
integer `x`, `x < 2147483648 * 0.7` (IEEE double arithmetic) holds exactly
when `x ≤ 1503238553`, i.e. when `10 * x < 7 * 2147483648`, so the integer
test below is equivalent.  Per-row failures are skipped in the source
(`EvictionFailure`); the embedding models the failure-free filesystem. -/
def cleanupLoop (currentSize : Nat) :
    List CacheEntry → CacheState → Nat → List CacheEvent →
      CacheState × Nat × List CacheEvent
  | [], s, removed, tr => (s, removed, tr)
  | e :: rest, s, removed, tr =>
      if 10 * ((currentSize : Int) - (removed : Int)) < 7 * (maxCacheSize : Int) then
        (s, removed, tr)
      else
        let d2 := if diskHas s.disk e.local_path then diskRemove s.disk e.local_path
          else s.disk
        cleanupLoop currentSize rest ⟨removeFromCacheDb s.db e.firmware_id, d2⟩
          (removed + e.file_size)
          (tr ++ [CacheEvent.removeFile e.local_path,
            CacheEvent.pruneDbEntry e.firmware_id])

/-- `cleanup_cache`: unless forced, return early below 80% of the ceiling
(float test `current_size < self.max_cache_size * 0.8`, equivalent to
`10 * current_size < 8 * 2147483648` on integers); otherwise evict eligible
candidates oldest-first until the projected size falls under 70%. -/
def cleanup_cache (s : CacheState) (force : Bool) (now : Int) :
    CacheState × List CacheEvent :=
  let currentSize := cacheDirSize s.disk
  if !force && 10 * currentSize < 8 * maxCacheSize then (s, [])
  else
    let cutoff := now - cacheRetentionSeconds
    let r := cleanupLoop currentSize (cleanupCandidates s.db cutoff) s 0 []
    (r.1, r.2.2)

/-- The cache operations a caller can interleave. -/
inductive CacheOp where
  | download (fid url : String) (content : List Nat) (tmpName : Nat) (now : Int)
  | get (fid : String)
  | cleanup (force : Bool) (now : Int)

/-- State reached after one operation. -/
def applyOp (s : CacheState) : CacheOp → CacheState
  | .download fid url content tmpName now =>
      (download_and_cache_firmware s fid url content tmpName now).2.1
  | .get fid => (get_cached_firmware_path s fid).2.1
  | .cleanup force now => (cleanup_cache s force now).1

/-- State reached after a sequence of operations. -/
def applyOps (s : CacheState) (ops : List CacheOp) : CacheState :=
  ops.foldl applyOp s

/-- Every index row points at an existing file (no dangling entries). -/
def entryFileExists (s : CacheState) : Prop :=
  ∀ e ∈ s.db, diskHas s.disk e.local_path = true

/-- Every file in the cache directory is owned by an index row (no orphan
files). -/
def cacheFilesOwned (s : CacheState) : Prop :=
  ∀ p sz, (p, sz) ∈ s.disk → p.inCacheDir = true →
    ∃ e ∈ s.db, e.local_path = p

/-- At most one index row per firmware id (`firmware_id` is the primary
key). -/
def uniqueFid (s : CacheState) : Prop :=
  (s.db.map (fun e => e.firmware_id)).Nodup

/-- Rows point into the cache directory at the name derived from their own
firmware id. -/
def pathsWF (s : CacheState) : Prop :=
  ∀ e ∈ s.db, e.local_path = FsPath.cache e.firmware_id

/-- The recorded `file_size` matches the file on disk. -/
def sizesAgree (s : CacheState) : Prop :=
  ∀ e ∈ s.db, diskSizeAt s.disk e.local_path = e.file_size

/-- Rows are only created after successful verification, hence marked
verified. -/
def allVerified (s : CacheState) : Prop := ∀ e ∈ s.db, e.verified = true

/-- The filesystem map has one record per path. -/
def diskKeysNodup (s : CacheState) : Prop := (s.disk.map (fun e => e.1)).Nodup

/-- The cache invariant: a `CacheEntry` exists iff its file exists on disk
(first two conjuncts), at most one entry per firmware id (third), plus the
auxiliary facts that make the invariant inductive. -/
def cacheInv (s : CacheState) : Prop :=
  entryFileExists s ∧ cacheFilesOwned s ∧ uniqueFid s ∧ pathsWF s ∧
    sizesAgree s ∧ allVerified s ∧ diskKeysNodup s

/-! ## Catalog (`firmware_manager.py`, class `FirmwareManager`) -/

/-- Whether `needle` occurs as a contiguous run inside `hay`
(Python `needle in hay` on strings / `pattern in file_data` on bytes). -/
def listIsInfix [BEq α] (needle : List α) : List α → Bool
  | [] => needle.isEmpty
  | c :: rest => needle.isPrefixOf (c :: rest) || listIsInfix needle rest

/-- Python `needle in hay` on strings. -/
def strContains (hay needle : String) : Bool := listIsInfix needle.data hay.data

/-- Python `str.replace(pat, '')`: drop every occurrence of `pat`,
scanning left to right (structural recursion on a fuel bound so the kernel
can evaluate it; `l.length` fuel always suffices). -/
def replaceDropAux (pat : List Char) : Nat → List Char → List Char
  | _, [] => []
  | 0, l => l
  | fuel + 1, c :: rest =>
      if !pat.isEmpty && pat.isPrefixOf (c :: rest) then
        replaceDropAux pat fuel (rest.drop (pat.length - 1))
      else c :: replaceDropAux pat fuel rest

def replaceDrop (pat l : List Char) : List Char := replaceDropAux pat l.length l

/-- Python `str.endswith`. -/
def strEndsWith (s suf : String) : Bool := suf.data.isSuffixOf s.data

/-- Python `str.lower()` on ASCII text. -/
def lowerStr (s : String) : String := String.mk (s.data.map Char.toLower)

/-- The filename classifier `_parse_firmware_filename` (its `Optional`
return type notwithstanding, the source returns a descriptor for every
input). -/
structure FirmwareInfo where
  chip_type : String
  variant : String
  features : List String
  compatibility : List String
deriving DecidableEq, Repr

/-- `_parse_firmware_filename`: strip `.bin`, lower-case, classify chip by
the `tasmota32`/`esp32` tokens, pick the first matching variant tag, then
append a locale suffix. -/
def parse_firmware_filename (filename : String) : FirmwareInfo :=
  let name := String.mk ((replaceDrop ".bin".data filename.data).map Char.toLower)
  let chip_type :=
    if strContains name "tasmota32" || strContains name "esp32" then "ESP32"
    else if strContains name "tasmota-esp32" then "ESP32"
    else "ESP8266"
  let vf : String × List String :=
    if strContains name "minimal" then ("minimal", ["OTA", "Basic GPIO"])
    else if strContains name "lite" then ("lite", ["MQTT", "WiFi", "Basic Controls"])
    else if strContains name "sensors" then
      ("sensors", ["All Sensors", "DHT22", "DS18B20", "BMP280"])
    else if strContains name "display" then
      ("display", ["Display Support", "SSD1306", "ILI9341"])
    else if strContains name "ir" then ("ir", ["IR Transmit", "IR Receive", "HVAC Control"])
    else if strContains name "zigbee" then ("zigbee", ["Zigbee Bridge", "CC2530", "Coordinator"])
    else if strContains name "knx" then ("knx", ["KNX Protocol", "Building Automation"])
    else ("standard", [])
  let vc : String × List String :=
    if strContains name "-de" then (vf.1 ++ "-de", ["German"])
    else if strContains name "-cn" then (vf.1 ++ "-cn", ["Chinese"])
    else (vf.1, [])
  { chip_type := chip_type, variant := vc.1, features := vf.2, compatibility := vc.2 }

/-- `_generate_firmware_id`: the dedup key,
`hashlib.md5(f"{name}_{version}_{channel}".encode()).hexdigest()`. -/
def generate_firmware_id (name version channel : String) : String :=
  md5Hex (name ++ "_" ++ version ++ "_" ++ channel)

/-- One row of the `firmware` table (columns a claim touches). -/
structure FirmwareRow where
  id : String
  name : String
  version : String
  chip_type : String
  variant : String
  channel : String
  source : String
  download_url : String
  size : Nat
  published_at : String
  changelog : String
  features : List String
  compatibility : List String
  verified : Bool
  status : String
deriving DecidableEq, Repr

/-- `_firmware_exists`: `SELECT id FROM firmware WHERE id = ?`. -/
def firmware_exists (db : List FirmwareRow) (fid : String) : Bool :=
  db.any (fun r => r.id == fid)

/-- A candidate descriptor appended by `_process_github_releases`. -/
structure Candidate where
  id : String
  name : String
  version : String
  chip_type : String
  variant : String
  channel : String
  source : String
  download_url : String
  size : Nat
  published_at : String
  changelog : String
  features : List String
  compatibility : List String
deriving DecidableEq, Repr

/-- One asset of a GitHub release. -/
structure ReleaseAsset where
  name : String
  browser_download_url : String
  size : Nat
deriving DecidableEq, Repr

/-- One GitHub release, as consumed by `_process_github_releases`. -/
structure Release where
  tag_name : String
  published_at : String
  body : String
  draft : Bool
  prerelease : Bool
  assets : List ReleaseAsset
deriving DecidableEq, Repr

/-- The per-release inner loop of `_process_github_releases`: for every
`.bin` asset, classify, compute the dedup key, and keep the candidate only
if the key is not yet in the catalog. -/
def assetCandidates (db : List FirmwareRow) (channel : String) (release : Release) :
    List Candidate :=
  release.assets.filterMap (fun a =>
    if strEndsWith a.name ".bin" then
      let info := parse_firmware_filename a.name
      let fid := generate_firmware_id a.name release.tag_name channel
      if firmware_exists db fid then none
      else some
        { id := fid, name := a.name, version := release.tag_name,
          chip_type := info.chip_type, variant := info.variant,
          channel := channel, source := "github_releases",
          download_url := a.browser_download_url, size := a.size,
          published_at := release.published_at, changelog := release.body,
          features := info.features, compatibility := info.compatibility }
    else none)

/-- `_process_github_releases`: the first 10 releases, skipping drafts and
prereleases. -/
def process_github_releases (releases : List Release) (db : List FirmwareRow)
    (channel : String) : List Candidate :=
  ((releases.take 10).filter (fun r => !r.draft && !r.prerelease)).flatMap
    (assetCandidates db channel)

/-- The row `save_firmware_updates` writes for one candidate:
`verified` is 1 exactly for the authoritative `github_releases` source,
`status` is `available`. -/
def candidateRow (c : Candidate) : FirmwareRow :=
  { id := c.id, name := c.name, version := c.version, chip_type := c.chip_type,
    variant := c.variant, channel := c.channel, source := c.source,
    download_url := c.download_url, size := c.size,
    published_at := c.published_at, changelog := c.changelog,
    features := c.features, compatibility := c.compatibility,
    verified := c.source == "github_releases", status := "available" }

/-- `INSERT OR REPLACE INTO firmware` keyed on the primary key `id`. -/
def upsertFirmware (db : List FirmwareRow) (r : FirmwareRow) : List FirmwareRow :=
  if firmware_exists db r.id then db.map (fun x => if x.id == r.id then r else x)
  else db ++ [r]

/-- `save_firmware_updates`: upsert every candidate; `saved_count` is
incremented once per update. -/
def save_firmware_updates (db : List FirmwareRow) (updates : List Candidate) :
    List FirmwareRow × Nat :=
  (updates.foldl (fun d u => upsertFirmware d (candidateRow u)) db, updates.length)

/-- One poll-and-save cycle against the GitHub releases source: the
candidates `_process_github_releases` reports are fed to
`save_firmware_updates` (as `_check_firmware_updates` in the scheduler
does). -/
def pollAndSaveGithub (db : List FirmwareRow) (releases : List Release)
    (channel : String) : List FirmwareRow × Nat :=
  save_firmware_updates db (process_github_releases releases db channel)

/-- The outcome of one source's check at the boundary of
`check_all_sources_for_updates`: either the update list the per-source
checker returned, or the exception it raised. -/
inductive SourceOutcome where
  | ok (updates : List Candidate)
  | err (msg : String)
deriving DecidableEq, Repr

/-- The aggregate built by `check_all_sources_for_updates` (the wall-clock
`duration` values are not modelled). -/
structure AggregateResult where
  total_updates : Nat
  sources : List (String × Nat × List Candidate)
  errors : List String
deriving DecidableEq, Repr

/-- `check_all_sources_for_updates`: each source is checked inside its own
`try`; a success contributes its updates under `results['sources']`, a
failure appends one `Error checking …` record and touches nothing else. -/
def check_all_sources_for_updates (srcs : List (String × SourceOutcome)) :
    AggregateResult :=
  srcs.foldl (fun acc s =>
    match s.2 with
    | .ok ups =>
        { acc with
          total_updates := acc.total_updates + ups.length
          sources := acc.sources ++ [(s.1, ups.length, ups)] }
    | .err m =>
        { acc with errors := acc.errors ++ ["Error checking " ++ s.1 ++ ": " ++ m] })
    { total_updates := 0, sources := [], errors := [] }

/-! ## Community pipeline (`community_firmware.py`, class
`CommunityFirmwareManager`) and the automated review
(`background_scheduler.py`, `_automated_firmware_review`) -/

/-- `os.path.splitext(s)[1]` for a plain filename: everything from the last
dot on, except that leading dots never start an extension. -/
def splitextTail : List Char → Option (List Char)
  | [] => none
  | c :: rest =>
      match splitextTail rest with
      | some e => some e
      | none => if c == '.' then some (c :: rest) else none

def splitextExt (s : String) : String :=
  match splitextTail (s.data.dropWhile (fun c => c == '.')) with
  | some e => String.mk e
  | none => ""

/-- `werkzeug.utils.secure_filename`, restricted to ASCII filenames: keep
alphanumerics and `._-`. -/
def secure_filename (s : String) : String :=
  String.mk (s.data.filter (fun c => c.isAlphanum || c == '.' || c == '-' || c == '_'))

/-- `self.max_file_size = 10 * 1024 * 1024`. -/
def max_file_size : Nat := 10485760

/-- `self.allowed_extensions = {'.bin', '.gz'}`. -/
def allowed_extensions : List String := [".bin", ".gz"]

/-- The suspicious byte patterns of `_scan_for_malware`. -/
def suspiciousPatterns : List (List Nat) :=
  ["eval(", "exec(", "system(", "shell_exec(", "<?php", "<script",
    "javascript:", "<iframe"].map utf8Bytes

/-- `_scan_for_malware`: reject on a suspicious pattern.  The Shannon
entropy it also computes over the first 10 KB is logged only and never
affects the result, so it is not modelled. -/
def scan_for_malware_clean (file_data : List Nat) : Bool :=
  !suspiciousPatterns.any (fun pat => listIsInfix pat file_data)

/-- The result of `_validate_firmware_binary` / `_validate_firmware_upload`:
the detected chip type, or the rejection reason. -/
inductive ValidationResult where
  | ok (chip_type : String)
  | fail (error : String)
deriving DecidableEq, Repr

/-- `_validate_firmware_binary`: ESP32 magic `E9 00 00 00`, ESP8266 magic
`E9`, or a gzip wrapper `1F 8B`. -/
def validate_firmware_binary (file_data : List Nat) : ValidationResult :=
  if 4 ≤ file_data.length && file_data.take 4 == [233, 0, 0, 0] then .ok "ESP32"
  else if 1 ≤ file_data.length && file_data.getD 0 0 == 233 then .ok "ESP8266"
  else if file_data.take 2 == [31, 139] then .ok "Unknown"
  else .fail "Invalid firmware format - no valid magic bytes found"

/-- One row of the `community_firmware` table (columns a claim touches;
the remaining metadata columns are copied verbatim from the upload request
and play no role in any claim). -/
structure CommunityRow where
  id : String
  name : String
  display_name : String
  description : String
  version : String
  chip_type : String
  variant : String
  author_name : String
  local_path : String
  file_size : Nat
  md5_hash : String
  sha256_hash : String
  license : String
  status : String
deriving DecidableEq, Repr

/-- The community manager's state: the `sha256_hash` column of the official
`firmware` table (all `_firmware_hash_exists` reads from it), the
`community_firmware` table, and the upload directory (filename ↦ bytes). -/
structure CommunityState where
  officialHashes : List String
  communityDb : List CommunityRow
  files : List (String × List Nat)
deriving DecidableEq, Repr

/-- `_firmware_hash_exists`: match the content hash against the official
catalog, then the community catalog. -/
def firmware_hash_exists (st : CommunityState) (file_hash : String) : Bool :=
  st.officialHashes.any (fun h => h == file_hash) ||
    st.communityDb.any (fun r => r.sha256_hash == file_hash)

/-- The metadata dict of an upload (absent keys are `none`). -/
structure UploadMetadata where
  display_name : Option String
  description : Option String
  version : Option String
  chip_type : Option String
  variant : Option String
  license : Option String
deriving DecidableEq, Repr

/-- The author dict of an upload. -/
structure AuthorInfo where
  name : Option String
  email : Option String
  github : Option String
deriving DecidableEq, Repr

/-- `_validate_firmware_upload`, in source order: size ceiling, size floor,
extension allow-list, duplicate content hash, binary format, malware
scan. -/
def validate_firmware_upload (st : CommunityState) (file_data : List Nat)
    (filename : String) : ValidationResult :=
  if file_data.length > max_file_size then
    .fail "File too large. Maximum size is 10.0MB"
  else if file_data.length < 100000 then
    .fail "File too small to be valid firmware"
  else if !allowed_extensions.any (fun e => e == lowerStr (splitextExt filename)) then
    .fail "Invalid file type. Allowed: .bin, .gz"
  else if firmware_hash_exists st (sha256Hex file_data) then
    .fail "This firmware file has already been uploaded"
  else
    match validate_firmware_binary file_data with
    | .fail e => .fail e
    | .ok chip =>
        if !scan_for_malware_clean file_data then .fail "Security scan failed"
        else .ok chip

/-- `_generate_community_firmware_id`:
`community_` + MD5 of `f"{filename}_{version}_{datetime.now().isoformat()}"`
— the wall-clock ISO timestamp is the `nowIso` parameter. -/
def generate_community_firmware_id (filename version nowIso : String) : String :=
  "community_" ++ md5Hex (filename ++ "_" ++ version ++ "_" ++ nowIso)

/-- The outcome `upload_firmware` reports. -/
inductive UploadResult where
  | success (firmware_id : String)
  | failure (error : String)
deriving DecidableEq, Repr

/-- `upload_firmware`: validate, generate the id, write the binary under
`{id}{ext}`, hash it, and insert the row with `status = 'pending'`
(`_analyze_firmware_file` only fills the advisory `build_info` column and
is not modelled). -/
def upload_firmware (st : CommunityState) (file_data : List Nat)
    (filename : String) (meta : UploadMetadata) (author : AuthorInfo)
    (nowIso : String) : UploadResult × CommunityState :=
  match validate_firmware_upload st file_data filename with
  | .fail e => (.failure e, st)
  | .ok chipDetected =>
      let fid := generate_community_firmware_id filename (meta.version.getD "custom") nowIso
      let secure_name := secure_filename filename
      let ext := lowerStr (splitextExt secure_name)
      let local_name := fid ++ ext
      let row : CommunityRow :=
        { id := fid, name := secure_name
          display_name := meta.display_name.getD secure_name
          description := meta.description.getD ""
          version := meta.version.getD "custom"
          chip_type := meta.chip_type.getD chipDetected
          variant := meta.variant.getD "custom"
          author_name := author.name.getD "Anonymous"
          local_path := local_name
          file_size := file_data.length
          md5_hash := bytesToHex (md5Bytes file_data)
          sha256_hash := sha256Hex file_data
          license := meta.license.getD "Unknown"
          status := "pending" }
      (.success fid,
       { st with
         communityDb := st.communityDb ++ [row]
         files := st.files.filter (fun f => f.1 != local_name) ++ [(local_name, file_data)] })

/-- The result record of `_automated_firmware_review` (`confidence` is the
Python float `0.0` or `0.8`, carried but never computed with). -/
structure ReviewResult where
  auto_approve : Bool
  auto_reject : Bool
  rejection_reason : Option String
  confidence : Rat
deriving DecidableEq, Repr

/-- `", ".join`. -/
def joinComma : List String → String
  | [] => ""
  | [s] => s
  | s :: rest => s ++ ", " ++ joinComma rest

/-- `_automated_firmware_review` on a pending row: reject out-of-range
sizes (100 KB – 8 MB) and missing metadata and suspicious keywords;
auto-approve large-enough, well-described uploads from authors with at
least 3 approved submissions (`authorApprovedCount` is the length of the
author's approved list the code queries). -/
def automated_firmware_review (fw : CommunityRow) (authorApprovedCount : Nat) :
    ReviewResult :=
  if fw.file_size < 100000 || fw.file_size > 8388608 then
    { auto_approve := false, auto_reject := true,
      rejection_reason := some "Invalid file size", confidence := 0 }
  else
    let missing :=
      (if fw.chip_type == "" then ["chip_type"] else []) ++
      (if fw.variant == "" then ["variant"] else []) ++
      (if fw.author_name == "" then ["author_name"] else [])
    if !missing.isEmpty then
      { auto_approve := false, auto_reject := true,
        rejection_reason := some ("Missing required fields: " ++ joinComma missing),
        confidence := 0 }
    else
      let description := lowerStr fw.description
      let nm := lowerStr fw.name
      if ["hack", "crack", "exploit", "backdoor", "virus"].any
          (fun kw => strContains description kw || strContains nm kw) then
        { auto_approve := false, auto_reject := true,
          rejection_reason := some "Suspicious content detected", confidence := 0 }
      else if fw.file_size > 500000 &&
          (fw.chip_type == "ESP32" || fw.chip_type == "ESP8266") &&
          decide (50 < fw.description.length) && decide (3 ≤ authorApprovedCount) then
        { auto_approve := true, auto_reject := false,
          rejection_reason := none, confidence := 4 / 5 }
      else
        { auto_approve := false, auto_reject := false,
          rejection_reason := none, confidence := 0 }

/-! ## Concrete fixtures used by witnesses and counterexamples -/

/-- A firmware-shaped payload: ESP32 magic header followed by `n` filler
bytes (value `0xE9`, which is no ASCII suspicious-pattern character). -/
def blob (n : Nat) : List Nat := 233 :: 0 :: 0 :: 0 :: List.replicate n 233

/-- An empty community store. -/
def stEmpty : CommunityState := { officialHashes := [], communityDb := [], files := [] }

/-- A metadata dict with no keys set. -/
def meta0 : UploadMetadata :=
  { display_name := none, description := none, version := none,
    chip_type := none, variant := none, license := none }

/-- An author dict with no keys set. -/
def author0 : AuthorInfo := { name := none, email := none, github := none }

/-- A community store already holding content with the hash of `blob 99996`
(as left by a successful first upload of those bytes). -/
def rowB : CommunityRow :=
  { id := "community_first", name := "fw.bin", display_name := "fw.bin",
    description := "", version := "custom", chip_type := "ESP32",
    variant := "custom", author_name := "Anonymous",
    local_path := "community_first.bin", file_size := 100000,
    md5_hash := bytesToHex (md5Bytes (blob 99996)),
    sha256_hash := sha256Hex (blob 99996), license := "Unknown",
    status := "pending" }

def st1 : CommunityState :=
  { officialHashes := [], communityDb := [rowB], files := [] }

/-- The GitHub release of the C8 scenario: `tasmota32-sensors.bin`,
650000 bytes, tag `v13.2.0`, neither draft nor prerelease. -/
def c8asset : ReleaseAsset :=
  { name := "tasmota32-sensors.bin",
    browser_download_url := "https://github.com/arendst/Tasmota/releases/download/v13.2.0/tasmota32-sensors.bin",
    size := 650000 }

def c8release : Release :=
  { tag_name := "v13.2.0", published_at := "2023-12-12T00:00:00Z",
    body := "Release notes", draft := false, prerelease := false,
    assets := [c8asset] }

/-- The dedup key of the C8 scenario's asset. -/
def c8id : String := generate_firmware_id "tasmota32-sensors.bin" "v13.2.0" "stable"

/-! ## Aggregation across sources (claim C9) -/

/-- What a succeeding source contributes to `results['sources']`. -/
def okEntry (s : String × SourceOutcome) : Option (String × Nat × List Candidate) :=
  match s.2 with
  | .ok u => some (s.1, u.length, u)
  | .err _ => none

/-- What a failing source contributes to `results['errors']`. -/
def errEntry (s : String × SourceOutcome) : Option String :=
  match s.2 with
  | .ok _ => none
  | .err m => some ("Error checking " ++ s.1 ++ ": " ++ m)

/-- What one source adds to `results['total_updates']`. -/
def okWeight (s : String × SourceOutcome) : Nat :=
  match s.2 with
  | .ok u => u.length
  | .err _ => 0

/-- Scans an event trace and checks that every move into the cache
directory happens only after some successful verification event. -/
def movesAfterVerifyOk : List CacheEvent → Bool → Bool
  | [], _ => true
  | .moveToCache _ _ :: rest, seen => seen && movesAfterVerifyOk rest seen
  | .verifyFile _ true :: rest, _ => movesAfterVerifyOk rest true
  | _ :: rest, seen => movesAfterVerifyOk rest seen

/-- "The move into the cache directory never precedes verification". -/
def moveOnlyAfterVerify (tr : List CacheEvent) : Bool := movesAfterVerifyOk tr false

/-- All `.bin` candidates of one release, before the dedup check. -/
def assetCandidatesAll (channel : String) (release : Release) : List Candidate :=
  release.assets.filterMap (fun a =>
    if strEndsWith a.name ".bin" then
      let info := parse_firmware_filename a.name
      some
        { id := generate_firmware_id a.name release.tag_name channel,
          name := a.name, version := release.tag_name,
          chip_type := info.chip_type, variant := info.variant,
          channel := channel, source := "github_releases",
          download_url := a.browser_download_url, size := a.size,
          published_at := release.published_at, changelog := release.body,
          features := info.features, compatibility := info.compatibility }
    else none)

/-- All candidates of a listing, before the dedup check. -/
def processAll (releases : List Release) (channel : String) : List Candidate :=
  ((releases.take 10).filter (fun r => !r.draft && !r.prerelease)).flatMap
    (assetCandidatesAll channel)

/-- The candidate the C8 release yields. -/
def c8cand : Candidate :=
  { id := c8id, name := "tasmota32-sensors.bin", version := "v13.2.0",
    chip_type := "ESP32", variant := "sensors", channel := "stable",
    source := "github_releases",
    download_url := c8asset.browser_download_url, size := 650000,
    published_at := "2023-12-12T00:00:00Z", changelog := "Release notes",
    features := ["All Sensors", "DHT22", "DS18B20", "BMP280"],
    compatibility := [] }

/-- A payload of the right size whose header carries no known magic. -/
def zblob (n : Nat) : List Nat := 0 :: 0 :: 0 :: 0 :: List.replicate n 0

/-- A cache state holding 1.9 GiB (2040109466 bytes) across two stale
entries — the C2 scenario. -/
def e19a : CacheEntry :=
  { firmware_id := "fwa", local_path := FsPath.cache "fwa",
    download_url := "https://example.org/a.bin", file_size := 1020054733,
    md5_hash := "", sha256_hash := "", download_count := 0,
    last_accessed := 0, verified := true }

def e19b : CacheEntry :=
  { firmware_id := "fwb", local_path := FsPath.cache "fwb",
    download_url := "https://example.org/b.bin", file_size := 1020054733,
    md5_hash := "", sha256_hash := "", download_count := 0,
    last_accessed := 0, verified := true }

def s19 : CacheState :=
  { db := [e19a, e19b],
    disk := [(FsPath.cache "fwa", 1020054733), (FsPath.cache "fwb", 1020054733)] }

/-- The row `_add_to_cache_db` inserts for a fresh download. -/
def newCacheEntry (fid url : String) (content : List Nat) (now : Int) : CacheEntry :=
  { firmware_id := fid, local_path := FsPath.cache fid, download_url := url,
    file_size := content.length,
    md5_hash := bytesToHex (md5Bytes content),
    sha256_hash := bytesToHex (sha256Bytes content),
    download_count := 0, last_accessed := now, verified := true }

/-! # Theorems -/

/-- The fold of `check_all_sources_for_updates`, relative to an arbitrary
starting accumulator. -/
theorem check_all_sources_fold (srcs : List (String × SourceOutcome))
    (acc : AggregateResult) :
    srcs.foldl (fun acc s =>
      match s.2 with
      | .ok ups =>
          { acc with
            total_updates := acc.total_updates + ups.length
            sources := acc.sources ++ [(s.1, ups.length, ups)] }
      | .err m =>
          { acc with errors := acc.errors ++ ["Error checking " ++ s.1 ++ ": " ++ m] })
      acc =
    { total_updates := acc.total_updates + (srcs.map okWeight).sum
      sources := acc.sources ++ srcs.filterMap okEntry
      errors := acc.errors ++ srcs.filterMap errEntry } := by
  induction srcs generalizing acc with
  | nil => simp
  | cons s rest ih =>
      cases s with
      | mk name outcome =>
          cases outcome with
          | ok u =>
              simp [List.foldl_cons, ih, okEntry, okWeight, errEntry,
                List.append_assoc, AggregateResult.mk.injEq]
              omega
          | err m =>
              simp [List.foldl_cons, ih, okEntry, okWeight, errEntry,
                List.append_assoc, AggregateResult.mk.injEq]

/-- C9: for every assignment of outcomes to the configured sources, the
aggregated update check collects exactly the candidate lists of the
succeeding sources under `results['sources']` and exactly one
`Error checking …` record per failing source under `results['errors']`;
no source's failure removes another source's candidates. -/
theorem check_all_sources_isolates_failures (srcs : List (String × SourceOutcome)) :
    check_all_sources_for_updates srcs =
      { total_updates := (srcs.map okWeight).sum
        sources := srcs.filterMap okEntry
        errors := srcs.filterMap errEntry } := by
  unfold check_all_sources_for_updates
  rw [check_all_sources_fold]
  simp

/-- The per-release dedup filter commutes out of the candidate builder. -/
theorem assetCandidates_eq (db : List FirmwareRow) (channel : String) (rel : Release) :
    assetCandidates db channel rel =
      (assetCandidatesAll channel rel).filter (fun c => !firmware_exists db c.id) := by
  cases rel with
  | mk tag pub body draft pre assets =>
      simp only [assetCandidates, assetCandidatesAll]
      induction assets with
      | nil => simp
      | cons a rest ih =>
          simp only [List.filterMap_cons]
          cases hb : strEndsWith a.name ".bin" with
          | false => simpa [hb] using ih
          | true =>
              cases he : firmware_exists db (generate_firmware_id a.name tag channel) with
              | false => simpa [hb, he] using ih
              | true => simpa [hb, he] using ih

/-- The dedup filter commutes out of the whole listing. -/
theorem process_eq_filter (releases : List Release) (db : List FirmwareRow)
    (channel : String) :
    process_github_releases releases db channel =
      (processAll releases channel).filter (fun c => !firmware_exists db c.id) := by
  simp only [process_github_releases, processAll]
  induction (releases.take 10).filter (fun r => !r.draft && !r.prerelease) with
  | nil => simp
  | cons r rest ih => simp [List.flatMap_cons, ih, assetCandidates_eq, List.filter_append]

/-- `INSERT OR REPLACE` adds the new id and keeps every existing id. -/
theorem firmware_exists_upsert (db : List FirmwareRow) (r : FirmwareRow) (i : String) :
    firmware_exists (upsertFirmware db r) i = (firmware_exists db i || r.id == i) := by
  unfold upsertFirmware
  cases hex : firmware_exists db r.id with
  | false =>
      simp [firmware_exists, List.any_append]
  | true =>
      rw [if_pos rfl]
      have hmap : ∀ d : List FirmwareRow,
          firmware_exists (d.map (fun x => if x.id == r.id then r else x)) i =
            firmware_exists d i := by
        intro d
        induction d with
        | nil => rfl
        | cons x rest ihd =>
            show ((if x.id == r.id then r else x).id == i ||
                firmware_exists (rest.map (fun x => if x.id == r.id then r else x)) i) =
              (x.id == i || firmware_exists rest i)
            rw [ihd]
            by_cases hxr : x.id = r.id
            · simp [hxr]
            · simp [hxr]
      rw [hmap db]
      cases hri : r.id == i with
      | false => simp
      | true =>
          have : r.id = i := by simpa using hri
          subst this
          simp [hex]

/-- The upsert fold of `save_firmware_updates` adds exactly the ids of its
updates. -/
theorem firmware_exists_foldl (us : List Candidate) (db : List FirmwareRow) (i : String) :
    firmware_exists (us.foldl (fun d u => upsertFirmware d (candidateRow u)) db) i =
      (firmware_exists db i || us.any (fun u => u.id == i)) := by
  induction us generalizing db with
  | nil => simp
  | cons u rest ih =>
      rw [List.foldl_cons, ih, firmware_exists_upsert]
      rw [show (candidateRow u).id = u.id from rfl]
      simp [List.any_cons, Bool.or_assoc]

/-- `save_firmware_updates` adds exactly the ids of its updates. -/
theorem firmware_exists_save (us : List Candidate) (db : List FirmwareRow) (i : String) :
    firmware_exists (save_firmware_updates db us).1 i =
      (firmware_exists db i || us.any (fun u => u.id == i)) :=
  firmware_exists_foldl us db i

/-- C7: re-polling an unchanged listing adds zero catalog rows — the second
poll-and-save cycle reports 0 saved updates and leaves the catalog exactly
as the first cycle left it. -/
theorem repoll_unchanged_source_idempotent (releases : List Release)
    (db : List FirmwareRow) (channel : String) :
    pollAndSaveGithub (pollAndSaveGithub db releases channel).1 releases channel =
      ((pollAndSaveGithub db releases channel).1, 0) := by
  have hempty : process_github_releases releases
      (pollAndSaveGithub db releases channel).1 channel = [] := by
    rw [process_eq_filter, List.filter_eq_nil_iff]
    intro c hc
    simp only [Bool.not_eq_true', Bool.not_eq_false]
    show firmware_exists
      (save_firmware_updates db (process_github_releases releases db channel)).1 c.id = true
    rw [firmware_exists_save]
    cases hex : firmware_exists db c.id with
    | true => simp
    | false =>
        simp only [Bool.false_or]
        rw [List.any_eq_true]
        refine ⟨c, ?_, by simp⟩
        rw [process_eq_filter, List.mem_filter]
        exact ⟨hc, by simp [hex]⟩
  show save_firmware_updates (pollAndSaveGithub db releases channel).1
    (process_github_releases releases (pollAndSaveGithub db releases channel).1 channel) = _
  rw [hempty]
  rfl

/-- C8: when the poller finds `tasmota32-sensors.bin` at `v13.2.0` on the
stable channel of the authoritative release source and its dedup key is
new, the catalog gains exactly one row, classified ESP32 / sensors /
stable and auto-verified. -/
theorem poller_catalogs_sensors_build (db : List FirmwareRow)
    (h : firmware_exists db c8id = false) :
    ∃ row : FirmwareRow,
      (pollAndSaveGithub db [c8release] "stable").1 = db ++ [row] ∧
      (pollAndSaveGithub db [c8release] "stable").2 = 1 ∧
      row.chip_type = "ESP32" ∧ row.variant = "sensors" ∧
      row.channel = "stable" ∧ row.verified = true ∧ row.status = "available" := by
  have hcid : c8cand.id = c8id := rfl
  have hproc : process_github_releases [c8release] db "stable" = [c8cand] := by
    rw [process_eq_filter]
    have hall : processAll [c8release] "stable" = [c8cand] := by
      set_option maxRecDepth 200000 in decide
    rw [hall, List.filter_cons, List.filter_nil]
    rw [hcid, h]
    rfl
  unfold pollAndSaveGithub
  rw [hproc]
  have hsave : save_firmware_updates db [c8cand] =
      (upsertFirmware db (candidateRow c8cand), 1) := rfl
  rw [hsave]
  have hup : upsertFirmware db (candidateRow c8cand) = db ++ [candidateRow c8cand] := by
    unfold upsertFirmware
    rw [show (candidateRow c8cand).id = c8id from rfl, h]
    simp
  exact ⟨candidateRow c8cand, by rw [hup], rfl, rfl, rfl, rfl, by decide, rfl⟩

/-- Witness for C8: the scenario run against an empty catalog. -/
theorem poller_catalogs_sensors_witness :
    firmware_exists [] c8id = false ∧
    ∃ row : FirmwareRow,
      (pollAndSaveGithub [] [c8release] "stable").1 = [] ++ [row] ∧
      (pollAndSaveGithub [] [c8release] "stable").2 = 1 ∧
      row.chip_type = "ESP32" ∧ row.variant = "sensors" ∧
      row.channel = "stable" ∧ row.verified = true ∧ row.status = "available" :=
  ⟨rfl, poller_catalogs_sensors_build [] rfl⟩

/-- A needle whose first element occurs nowhere in the haystack is no
infix of it. -/
theorem listIsInfix_all_ne {α} [BEq α] [LawfulBEq α] (p : α) (tl hay : List α)
    (hne : ∀ x ∈ hay, p ≠ x) : listIsInfix (p :: tl) hay = false := by
  induction hay with
  | nil => rfl
  | cons h t ih =>
      show (List.isPrefixOf (p :: tl) (h :: t) || listIsInfix (p :: tl) t) = false
      rw [ih (fun x hx => hne x (List.mem_cons_of_mem h hx))]
      have : (p == h) = false := beq_eq_false_iff_ne.mpr (hne h (List.mem_cons_self h t))
      simp [List.isPrefixOf, this]

theorem blob_length (n : Nat) : (blob n).length = n + 4 := by
  simp only [blob, List.length_cons, List.length_replicate]

theorem blob_mem (n : Nat) : ∀ x ∈ blob n, x = 233 ∨ x = 0 := by
  intro x hx
  simp only [blob, List.mem_cons] at hx
  rcases hx with h | h | h | h | h
  · exact Or.inl h
  · exact Or.inr h
  · exact Or.inr h
  · exact Or.inr h
  · exact Or.inl (List.eq_of_mem_replicate h)

theorem listIsInfix_blob_false (n p : Nat) (tl : List Nat)
    (h1 : p ≠ 233) (h2 : p ≠ 0) : listIsInfix (p :: tl) (blob n) = false :=
  listIsInfix_all_ne p tl (blob n) (fun x hx => by
    rcases blob_mem n x hx with h | h
    · rw [h]; exact h1
    · rw [h]; exact h2)

/-- The firmware-shaped payload triggers no suspicious pattern. -/
theorem scan_blob (n : Nat) : scan_for_malware_clean (blob n) = true := by
  have e1 : listIsInfix (utf8Bytes "eval(") (blob n) = false := by
    rw [show utf8Bytes "eval(" = 101 :: [118, 97, 108, 40] from by decide]
    exact listIsInfix_blob_false n 101 _ (by decide) (by decide)
  have e2 : listIsInfix (utf8Bytes "exec(") (blob n) = false := by
    rw [show utf8Bytes "exec(" = 101 :: [120, 101, 99, 40] from by decide]
    exact listIsInfix_blob_false n 101 _ (by decide) (by decide)
  have e3 : listIsInfix (utf8Bytes "system(") (blob n) = false := by
    rw [show utf8Bytes "system(" = 115 :: [121, 115, 116, 101, 109, 40] from by decide]
    exact listIsInfix_blob_false n 115 _ (by decide) (by decide)
  have e4 : listIsInfix (utf8Bytes "shell_exec(") (blob n) = false := by
    rw [show utf8Bytes "shell_exec(" =
      115 :: [104, 101, 108, 108, 95, 101, 120, 101, 99, 40] from by decide]
    exact listIsInfix_blob_false n 115 _ (by decide) (by decide)
  have e5 : listIsInfix (utf8Bytes "<?php") (blob n) = false := by
    rw [show utf8Bytes "<?php" = 60 :: [63, 112, 104, 112] from by decide]
    exact listIsInfix_blob_false n 60 _ (by decide) (by decide)
  have e6 : listIsInfix (utf8Bytes "<script") (blob n) = false := by
    rw [show utf8Bytes "<script" = 60 :: [115, 99, 114, 105, 112, 116] from by decide]
    exact listIsInfix_blob_false n 60 _ (by decide) (by decide)
  have e7 : listIsInfix (utf8Bytes "javascript:") (blob n) = false := by
    rw [show utf8Bytes "javascript:" =
      106 :: [97, 118, 97, 115, 99, 114, 105, 112, 116, 58] from by decide]
    exact listIsInfix_blob_false n 106 _ (by decide) (by decide)
  have e8 : listIsInfix (utf8Bytes "<iframe") (blob n) = false := by
    rw [show utf8Bytes "<iframe" = 60 :: [105, 102, 114, 97, 109, 101] from by decide]
    exact listIsInfix_blob_false n 60 _ (by decide) (by decide)
  unfold scan_for_malware_clean suspiciousPatterns
  simp only [List.map_cons, List.map_nil, List.any_cons, List.any_nil,
    e1, e2, e3, e4, e5, e6, e7, e8, Bool.or_false, Bool.not_false]

/-- The firmware-shaped payload carries the ESP32 magic. -/
theorem binary_blob (n : Nat) : validate_firmware_binary (blob n) = .ok "ESP32" := by
  unfold validate_firmware_binary
  rw [if_pos]
  rw [blob_length]
  have h4 : decide (4 ≤ n + 4) = true := decide_eq_true (by omega)
  rw [h4]
  simp [blob]

/-- A firmware-shaped payload of admissible size with no colliding hash
passes the upload validator. -/
theorem validate_blob (st : CommunityState) (n : Nat) (h1 : 99996 ≤ n)
    (h2 : n + 4 ≤ max_file_size)
    (hh : firmware_hash_exists st (sha256Hex (blob n)) = false) :
    validate_firmware_upload st (blob n) "fw.bin" = .ok "ESP32" := by
  unfold validate_firmware_upload
  rw [blob_length]
  rw [if_neg (by omega)]
  rw [if_neg (by omega)]
  rw [if_neg (by decide :
    ¬ ((!allowed_extensions.any (fun e => e == lowerStr (splitextExt "fw.bin"))) = true))]
  rw [hh]
  rw [if_neg (by simp)]
  rw [binary_blob]
  rw [scan_blob]
  rfl

/-- On a failed validation, `upload_firmware` reports the error and leaves
the store untouched. -/
theorem upload_fail_unchanged (st : CommunityState) (data : List Nat)
    (filename : String) (meta : UploadMetadata) (author : AuthorInfo)
    (nowIso e : String)
    (h : validate_firmware_upload st data filename = .fail e) :
    upload_firmware st data filename meta author nowIso = (.failure e, st) := by
  unfold upload_firmware
  rw [h]

/-- On a successful validation, `upload_firmware` reports success with the
freshly generated id. -/
theorem upload_fst_ok (st : CommunityState) (data : List Nat) (filename : String)
    (meta : UploadMetadata) (author : AuthorInfo) (nowIso chip : String)
    (h : validate_firmware_upload st data filename = .ok chip) :
    (upload_firmware st data filename meta author nowIso).1 =
      .success (generate_community_firmware_id filename (meta.version.getD "custom") nowIso) := by
  unfold upload_firmware
  rw [h]

/-- C6 (amended): an accepted binary is persisted under the id
`community_` + MD5 of `filename_version_timestamp` — a function of the
original filename, the metadata version and the upload wall-clock time,
not of the file content — and the recorded entry has status `pending`. -/
theorem upload_persists_pending_with_time_derived_id (st : CommunityState)
    (data : List Nat) (filename : String) (meta : UploadMetadata)
    (author : AuthorInfo) (nowIso chip : String)
    (h : validate_firmware_upload st data filename = .ok chip) :
    (upload_firmware st data filename meta author nowIso).1 =
      .success (generate_community_firmware_id filename (meta.version.getD "custom") nowIso) ∧
    ∃ row : CommunityRow,
      (upload_firmware st data filename meta author nowIso).2.communityDb =
        st.communityDb ++ [row] ∧
      row.id = generate_community_firmware_id filename (meta.version.getD "custom") nowIso ∧
      row.status = "pending" ∧ row.file_size = data.length ∧
      row.sha256_hash = sha256Hex data := by
  unfold upload_firmware
  rw [h]
  exact ⟨rfl, _, rfl, rfl, rfl, rfl, rfl⟩

/-- Witness for C6 (amended): a concrete 100000-byte ESP32 payload uploaded
into an empty store at a fixed wall-clock instant. -/
theorem upload_persists_pending_witness :
    validate_firmware_upload stEmpty (blob 99996) "fw.bin" = .ok "ESP32" ∧
    ((upload_firmware stEmpty (blob 99996) "fw.bin" meta0 author0
        "2025-01-01T00:00:00").1 =
      .success (generate_community_firmware_id "fw.bin" "custom" "2025-01-01T00:00:00") ∧
    ∃ row : CommunityRow,
      (upload_firmware stEmpty (blob 99996) "fw.bin" meta0 author0
          "2025-01-01T00:00:00").2.communityDb = stEmpty.communityDb ++ [row] ∧
      row.id = generate_community_firmware_id "fw.bin" "custom" "2025-01-01T00:00:00" ∧
      row.status = "pending" ∧ row.file_size = (blob 99996).length ∧
      row.sha256_hash = sha256Hex (blob 99996)) := by
  have hv : validate_firmware_upload stEmpty (blob 99996) "fw.bin" = .ok "ESP32" :=
    validate_blob stEmpty 99996 (by omega) (by decide) rfl
  exact ⟨hv, upload_persists_pending_with_time_derived_id stEmpty (blob 99996) "fw.bin"
    meta0 author0 "2025-01-01T00:00:00" "ESP32" hv⟩

/-- C6 counterexample: the persisted id is not content-derived — the same
bytes, filename and metadata uploaded at two different instants are
persisted under two different ids, so the id is not a function of the
bytes. -/
theorem upload_id_not_content_derived_counterexample :
    (upload_firmware stEmpty (blob 99996) "fw.bin" meta0 author0
        "2025-01-01T00:00:00").1 =
      .success (generate_community_firmware_id "fw.bin" "custom" "2025-01-01T00:00:00") ∧
    (upload_firmware stEmpty (blob 99996) "fw.bin" meta0 author0
        "2025-01-01T00:00:01").1 =
      .success (generate_community_firmware_id "fw.bin" "custom" "2025-01-01T00:00:01") ∧
    generate_community_firmware_id "fw.bin" "custom" "2025-01-01T00:00:00" ≠
      generate_community_firmware_id "fw.bin" "custom" "2025-01-01T00:00:01" := by
  have hv : validate_firmware_upload stEmpty (blob 99996) "fw.bin" = .ok "ESP32" :=
    validate_blob stEmpty 99996 (by omega) (by decide) rfl
  refine ⟨upload_fst_ok _ _ _ _ _ _ _ hv, upload_fst_ok _ _ _ _ _ _ _ hv, ?_⟩
  set_option maxRecDepth 200000 in decide

/-- C5 (amended): bytes whose SHA-256 is already recorded in the official
or community catalog are rejected as already uploaded — for every filename
with an allow-listed extension and every metadata/author — and the
rejection mutates nothing: `upload_firmware` returns the error with the
store unchanged, before any file write or row insert. -/
theorem duplicate_content_rejected_unchanged (st : CommunityState)
    (data : List Nat) (filename : String) (meta : UploadMetadata)
    (author : AuthorInfo) (nowIso : String)
    (hsz1 : data.length ≤ max_file_size) (hsz2 : 100000 ≤ data.length)
    (hext : allowed_extensions.any (fun e => e == lowerStr (splitextExt filename)) = true)
    (hdup : firmware_hash_exists st (sha256Hex data) = true) :
    validate_firmware_upload st data filename =
      .fail "This firmware file has already been uploaded" ∧
    upload_firmware st data filename meta author nowIso =
      (.failure "This firmware file has already been uploaded", st) := by
  have hval : validate_firmware_upload st data filename =
      .fail "This firmware file has already been uploaded" := by
    unfold validate_firmware_upload
    rw [if_neg (by omega)]
    rw [if_neg (by omega)]
    rw [hext]
    rw [if_neg (by simp)]
    rw [hdup]
    rfl
  exact ⟨hval, upload_fail_unchanged st data filename meta author nowIso _ hval⟩

/-- Witness for C5 (amended): re-uploading the exact bytes already held by
the community store under a fresh `.bin` filename. -/
theorem duplicate_content_rejected_witness :
    ((blob 99996).length ≤ max_file_size ∧ 100000 ≤ (blob 99996).length ∧
      allowed_extensions.any (fun e => e == lowerStr (splitextExt "other-name.bin")) = true ∧
      firmware_hash_exists st1 (sha256Hex (blob 99996)) = true) ∧
    validate_firmware_upload st1 (blob 99996) "other-name.bin" =
      .fail "This firmware file has already been uploaded" ∧
    upload_firmware st1 (blob 99996) "other-name.bin" meta0 author0 "2025-01-02T00:00:00" =
      (.failure "This firmware file has already been uploaded", st1) := by
  have hlen : (blob 99996).length = 100000 := by rw [blob_length]
  have h1 : (blob 99996).length ≤ max_file_size := by rw [hlen]; decide
  have h2 : 100000 ≤ (blob 99996).length := by rw [hlen]
  have h3 : allowed_extensions.any
      (fun e => e == lowerStr (splitextExt "other-name.bin")) = true := by decide
  have h4 : firmware_hash_exists st1 (sha256Hex (blob 99996)) = true := by
    simp [firmware_hash_exists, st1, rowB]
  exact ⟨⟨h1, h2, h3, h4⟩,
    duplicate_content_rejected_unchanged st1 (blob 99996) "other-name.bin"
      meta0 author0 "2025-01-02T00:00:00" h1 h2 h3 h4⟩

/-- C5 counterexample: identical bytes already stored (their SHA-256 is in
the community catalog), re-uploaded under a filename with a disallowed
extension, are rejected for the file type — not as a duplicate — so the
claim's "rejected as a duplicate regardless of its filename" fails;
nothing is mutated either way. -/
theorem duplicate_content_wrong_extension_counterexample :
    firmware_hash_exists st1 (sha256Hex (blob 99996)) = true ∧
    validate_firmware_upload st1 (blob 99996) "fw.txt" =
      .fail "Invalid file type. Allowed: .bin, .gz" ∧
    "Invalid file type. Allowed: .bin, .gz" ≠
      "This firmware file has already been uploaded" ∧
    upload_firmware st1 (blob 99996) "fw.txt" meta0 author0 "2025-01-02T00:00:00" =
      (.failure "Invalid file type. Allowed: .bin, .gz", st1) := by
  have h4 : firmware_hash_exists st1 (sha256Hex (blob 99996)) = true := by
    simp [firmware_hash_exists, st1, rowB]
  have hval : validate_firmware_upload st1 (blob 99996) "fw.txt" =
      .fail "Invalid file type. Allowed: .bin, .gz" := by
    unfold validate_firmware_upload
    rw [blob_length]
    rw [if_neg (by decide)]
    rw [if_neg (by decide)]
    rw [if_pos (by decide :
      (!allowed_extensions.any (fun e => e == lowerStr (splitextExt "fw.txt"))) = true)]
  exact ⟨h4, hval, by decide,
    upload_fail_unchanged st1 (blob 99996) "fw.txt" meta0 author0
      "2025-01-02T00:00:00" _ hval⟩

/-- `_validate_firmware_binary` fails with only one message. -/
theorem validate_firmware_binary_fail_msg (d : List Nat) (e : String)
    (h : validate_firmware_binary d = .fail e) :
    e = "Invalid firmware format - no valid magic bytes found" := by
  unfold validate_firmware_binary at h
  split at h
  · exact absurd h (by simp)
  · split at h
    · exact absurd h (by simp)
    · split at h
      · exact absurd h (by simp)
      · simpa using h.symm

/-- An accepted upload is within the validator's 10 MiB ceiling. -/
theorem validate_ok_le_max (st : CommunityState) (data : List Nat)
    (filename chip : String)
    (h : validate_firmware_upload st data filename = .ok chip) :
    data.length ≤ max_file_size := by
  by_cases hgt : data.length > max_file_size
  · unfold validate_firmware_upload at h
    rw [if_pos hgt] at h
    exact absurd h (by simp)
  · omega

/-- The upload validator never reports "too large" within the 10 MiB
bound. -/
theorem validate_not_toolarge (st2 : CommunityState) (data2 : List Nat)
    (fn2 : String) (hle : data2.length ≤ 10485760) :
    validate_firmware_upload st2 data2 fn2 ≠
      .fail "File too large. Maximum size is 10.0MB" := by
  have hmax : ¬ (data2.length > max_file_size) := by
    have h10 : max_file_size = 10485760 := rfl
    omega
  unfold validate_firmware_upload
  rw [if_neg hmax]
  intro hbad
  split at hbad
  · exact absurd hbad (by decide)
  · split at hbad
    · exact absurd hbad (by decide)
    · split at hbad
      · exact absurd hbad (by decide)
      · split at hbad
        · rename_i e heq
          rw [validate_firmware_binary_fail_msg data2 e heq] at hbad
          exact absurd hbad (by decide)
        · split at hbad
          · exact absurd hbad (by decide)
          · exact absurd hbad (by simp)

/-- C10: the automated review's size window (100 KB – 8 MiB) is narrower
than the upload validator's (100 KB – 10 MiB): every accepted upload
larger than 8 MiB — necessarily at most 10 MiB — is recorded pending and
then auto-rejected by the review with reason `Invalid file size`, while
the validator itself never rejects a payload within 10 MiB as too
large. -/
theorem oversize_accepted_upload_auto_rejected (st : CommunityState)
    (data : List Nat) (filename : String) (meta : UploadMetadata)
    (author : AuthorInfo) (nowIso chip : String)
    (h : validate_firmware_upload st data filename = .ok chip)
    (hsz : 8388608 < data.length) :
    data.length ≤ 10485760 ∧
    (∃ row : CommunityRow,
      (upload_firmware st data filename meta author nowIso).2.communityDb =
        st.communityDb ++ [row] ∧ row.status = "pending" ∧
      row.file_size = data.length ∧
      ∀ count : Nat, automated_firmware_review row count =
        { auto_approve := false, auto_reject := true,
          rejection_reason := some "Invalid file size", confidence := 0 }) ∧
    (∀ (st2 : CommunityState) (data2 : List Nat) (fn2 : String),
      data2.length ≤ 10485760 →
      validate_firmware_upload st2 data2 fn2 ≠
        .fail "File too large. Maximum size is 10.0MB") := by
  refine ⟨validate_ok_le_max st data filename chip h, ?_, validate_not_toolarge⟩
  unfold upload_firmware
  rw [h]
  refine ⟨_, rfl, rfl, rfl, ?_⟩
  intro count
  unfold automated_firmware_review
  rw [if_pos]
  simp [hsz]

/-- Witness for C10: a concrete 8 MiB + 1 byte ESP32 payload accepted into
an empty store and auto-rejected by the review. -/
theorem oversize_accepted_upload_witness :
    validate_firmware_upload stEmpty (blob 8388605) "fw.bin" = .ok "ESP32" ∧
    8388608 < (blob 8388605).length ∧
    ((blob 8388605).length ≤ 10485760 ∧
    (∃ row : CommunityRow,
      (upload_firmware stEmpty (blob 8388605) "fw.bin" meta0 author0
          "2025-01-03T00:00:00").2.communityDb =
        stEmpty.communityDb ++ [row] ∧ row.status = "pending" ∧
      row.file_size = (blob 8388605).length ∧
      ∀ count : Nat, automated_firmware_review row count =
        { auto_approve := false, auto_reject := true,
          rejection_reason := some "Invalid file size", confidence := 0 }) ∧
    (∀ (st2 : CommunityState) (data2 : List Nat) (fn2 : String),
      data2.length ≤ 10485760 →
      validate_firmware_upload st2 data2 fn2 ≠
        .fail "File too large. Maximum size is 10.0MB")) := by
  have hv : validate_firmware_upload stEmpty (blob 8388605) "fw.bin" = .ok "ESP32" :=
    validate_blob stEmpty 8388605 (by omega) (by decide) rfl
  have hs : 8388608 < (blob 8388605).length := by rw [blob_length]; omega
  exact ⟨hv, hs, oversize_accepted_upload_auto_rejected stEmpty (blob 8388605)
    "fw.bin" meta0 author0 "2025-01-03T00:00:00" "ESP32" hv hs⟩

/-! ## Filesystem-map lemmas -/

theorem any_filter_key (d : Disk) (p q : FsPath) (h : q ≠ p) :
    ((d.filter (fun e => e.1 != p)).any (fun e => e.1 == q)) =
      d.any (fun e => e.1 == q) := by
  induction d with
  | nil => rfl
  | cons x rest ih =>
      by_cases hx : x.1 = p
      · rw [List.filter_cons_of_neg (by simp [hx])]
        have hq : (x.1 == q) = false := by
          rw [hx]
          exact beq_eq_false_iff_ne.mpr (Ne.symm h)
        rw [ih, List.any_cons, hq, Bool.false_or]
      · rw [List.filter_cons_of_pos (by simp [hx])]
        rw [List.any_cons, List.any_cons, ih]

theorem find?_filter_key (d : Disk) (p q : FsPath) (h : q ≠ p) :
    ((d.filter (fun e => e.1 != p)).find? (fun e => e.1 == q)) =
      d.find? (fun e => e.1 == q) := by
  induction d with
  | nil => rfl
  | cons x rest ih =>
      by_cases hx : x.1 = p
      · rw [List.filter_cons_of_neg (by simp [hx])]
        have hq : (x.1 == q) = false := by
          rw [hx]
          exact beq_eq_false_iff_ne.mpr (Ne.symm h)
        rw [ih, List.find?_cons_of_neg _ (by simp [hq])]
      · rw [List.filter_cons_of_pos (by simp [hx])]
        cases hq : (x.1 == q) with
        | true =>
            rw [@List.find?_cons_of_pos _ (fun e => e.1 == q) x _ hq,
              @List.find?_cons_of_pos _ (fun e => e.1 == q) x _ hq]
        | false =>
            rw [@List.find?_cons_of_neg _ (fun e => e.1 == q) x _ (by simp [hq]),
              @List.find?_cons_of_neg _ (fun e => e.1 == q) x _ (by simp [hq]), ih]

theorem diskHas_iff_mem (d : Disk) (p : FsPath) :
    diskHas d p = true ↔ ∃ sz, (p, sz) ∈ d := by
  unfold diskHas
  rw [List.any_eq_true]
  constructor
  · rintro ⟨⟨q, sz⟩, hmem, hq⟩
    have : q = p := by simpa using hq
    exact ⟨sz, this ▸ hmem⟩
  · rintro ⟨sz, hmem⟩
    exact ⟨(p, sz), hmem, by simp⟩

theorem diskHas_write_self (d : Disk) (p : FsPath) (sz : Nat) :
    diskHas (diskWrite d p sz) p = true := by
  unfold diskHas diskWrite
  rw [List.any_append]
  simp

theorem diskHas_write_ne (d : Disk) (p q : FsPath) (sz : Nat) (h : q ≠ p) :
    diskHas (diskWrite d p sz) q = diskHas d q := by
  unfold diskHas diskWrite
  rw [List.any_append, any_filter_key d p q h]
  have h1 : ([(p, sz)].any (fun e => e.1 == q)) = false := by
    have : (p == q) = false := beq_eq_false_iff_ne.mpr (Ne.symm h)
    simp [this]
  rw [h1, Bool.or_false]

theorem diskHas_remove_self (d : Disk) (p : FsPath) :
    diskHas (diskRemove d p) p = false := by
  unfold diskHas diskRemove
  rw [List.any_eq_false]
  intro e he
  rw [List.mem_filter] at he
  simpa using he.2

theorem diskHas_remove_ne (d : Disk) (p q : FsPath) (h : q ≠ p) :
    diskHas (diskRemove d p) q = diskHas d q := by
  unfold diskHas diskRemove
  exact any_filter_key d p q h

theorem diskSizeAt_write_self (d : Disk) (p : FsPath) (sz : Nat) :
    diskSizeAt (diskWrite d p sz) p = sz := by
  unfold diskSizeAt diskWrite
  have hnone : (d.filter (fun e => e.1 != p)).find? (fun e => e.1 == p) = none := by
    rw [List.find?_eq_none]
    intro x hx
    rw [List.mem_filter] at hx
    simpa using hx.2
  rw [List.find?_append, hnone]
  simp

theorem diskSizeAt_write_ne (d : Disk) (p q : FsPath) (sz : Nat) (h : q ≠ p) :
    diskSizeAt (diskWrite d p sz) q = diskSizeAt d q := by
  unfold diskSizeAt diskWrite
  rw [List.find?_append, find?_filter_key d p q h]
  have h1 : ([(p, sz)].find? (fun e => e.1 == q)) = none := by
    have : (p == q) = false := beq_eq_false_iff_ne.mpr (Ne.symm h)
    rw [List.find?_cons_of_neg _ (by simp [this])]
    rfl
  rw [h1, Option.or_none]

theorem diskSizeAt_remove_ne (d : Disk) (p q : FsPath) (h : q ≠ p) :
    diskSizeAt (diskRemove d p) q = diskSizeAt d q := by
  unfold diskSizeAt diskRemove
  rw [find?_filter_key d p q h]

theorem mem_diskWrite (d : Disk) (p q : FsPath) (sz sz2 : Nat)
    (h : (q, sz2) ∈ diskWrite d p sz) :
    (q = p ∧ sz2 = sz) ∨ ((q, sz2) ∈ d ∧ q ≠ p) := by
  unfold diskWrite at h
  rw [List.mem_append] at h
  rcases h with h | h
  · rw [List.mem_filter] at h
    exact Or.inr ⟨h.1, by simpa using h.2⟩
  · simp at h
    exact Or.inl ⟨h.1, h.2⟩

theorem mem_diskRemove (d : Disk) (p q : FsPath) (sz2 : Nat)
    (h : (q, sz2) ∈ diskRemove d p) : (q, sz2) ∈ d ∧ q ≠ p := by
  unfold diskRemove at h
  rw [List.mem_filter] at h
  exact ⟨h.1, by simpa using h.2⟩

theorem keys_nodup_diskWrite (d : Disk) (p : FsPath) (sz : Nat)
    (h : (d.map (fun e => e.1)).Nodup) :
    ((diskWrite d p sz).map (fun e => e.1)).Nodup := by
  unfold diskWrite
  rw [List.map_append, List.nodup_append]
  refine ⟨?_, by simp, ?_⟩
  · exact ((List.filter_sublist d).map (fun e => e.1)).nodup h
  · intro x hx
    simp only [List.mem_map] at hx
    obtain ⟨e, he, hxe⟩ := hx
    rw [List.mem_filter] at he
    simp only [List.map_cons, List.map_nil, List.mem_singleton]
    intro hxp
    rw [hxp] at hxe
    have hne : ¬ e.1 = p := by simpa using he.2
    exact hne hxe

theorem keys_nodup_diskRemove (d : Disk) (p : FsPath)
    (h : (d.map (fun e => e.1)).Nodup) :
    ((diskRemove d p).map (fun e => e.1)).Nodup :=
  ((List.filter_sublist d).map (fun e => e.1)).nodup h

theorem diskSizeAt_of_mem (d : Disk) (p : FsPath) (sz : Nat)
    (hnd : (d.map (fun e => e.1)).Nodup) (hmem : (p, sz) ∈ d) :
    diskSizeAt d p = sz := by
  unfold diskSizeAt
  induction d with
  | nil => cases hmem
  | cons x rest ih =>
      rw [List.map_cons, List.nodup_cons] at hnd
      rcases List.mem_cons.mp hmem with h | h
      · rw [← h]
        rw [List.find?_cons_of_pos _ (by simp)]
        rfl
      · have hxp : x.1 ≠ p := by
          intro hc
          exact hnd.1 (by
            rw [hc]
            exact List.mem_map.mpr ⟨(p, sz), h, rfl⟩)
        rw [List.find?_cons_of_neg _ (by simpa using hxp)]
        exact ih hnd.2 h

theorem cacheDirSize_remove (d : Disk) (p : FsPath) (sz : Nat)
    (hnd : (d.map (fun e => e.1)).Nodup) (hmem : (p, sz) ∈ d)
    (hin : p.inCacheDir = true) :
    cacheDirSize (diskRemove d p) + sz = cacheDirSize d := by
  unfold cacheDirSize diskRemove
  induction d with
  | nil => cases hmem
  | cons x rest ih =>
      rw [List.map_cons, List.nodup_cons] at hnd
      rcases List.mem_cons.mp hmem with h | h
      · rw [← h] at hnd ⊢
        rw [List.filter_cons_of_neg (by simp)]
        have hrest : rest.filter (fun e => e.1 != p) = rest := by
          rw [List.filter_eq_self]
          intro a ha
          have : a.1 ≠ p := by
            intro hc
            exact hnd.1 (by
              rw [← hc]
              exact List.mem_map.mpr ⟨a, ha, rfl⟩)
          simpa using this
        rw [hrest, @List.filter_cons_of_pos _ (fun e => e.1.inCacheDir) (p, sz) rest hin]
        simp only [List.map_cons, List.sum_cons]
        omega
      · have hxp : x.1 ≠ p := by
          intro hc
          exact hnd.1 (by
            rw [hc]
            exact List.mem_map.mpr ⟨(p, sz), h, rfl⟩)
        rw [List.filter_cons_of_pos (by simpa using hxp)]
        by_cases hx : x.1.inCacheDir = true
        · rw [@List.filter_cons_of_pos _ (fun e => e.1.inCacheDir) x _ hx,
            @List.filter_cons_of_pos _ (fun e => e.1.inCacheDir) x _ hx]
          simp only [List.map_cons, List.sum_cons]
          have := ih hnd.2 h
          omega
        · rw [@List.filter_cons_of_neg _ (fun e => e.1.inCacheDir) x _ hx,
            @List.filter_cons_of_neg _ (fun e => e.1.inCacheDir) x _ hx]
          exact ih hnd.2 h

/-! ## Cache-index lemmas -/

theorem mem_removeFromCacheDb (db : List CacheEntry) (fid : String) (e : CacheEntry) :
    e ∈ removeFromCacheDb db fid ↔ e ∈ db ∧ e.firmware_id ≠ fid := by
  unfold removeFromCacheDb
  rw [List.mem_filter]
  simp

theorem removeFromCacheDb_noop (db : List CacheEntry) (fid : String)
    (h : ∀ e ∈ db, e.firmware_id ≠ fid) : removeFromCacheDb db fid = db := by
  unfold removeFromCacheDb
  rw [List.filter_eq_self]
  intro e he
  simpa using h e he

theorem nodupFid_eq {db : List CacheEntry}
    (h : (db.map (fun e => e.firmware_id)).Nodup) {e e2 : CacheEntry}
    (he : e ∈ db) (he2 : e2 ∈ db)
    (hfid : e.firmware_id = e2.firmware_id) : e = e2 :=
  List.inj_on_of_nodup_map h he he2 hfid

theorem nodupFid_removeFromCacheDb (db : List CacheEntry) (fid : String)
    (h : (db.map (fun e => e.firmware_id)).Nodup) :
    ((removeFromCacheDb db fid).map (fun e => e.firmware_id)).Nodup :=
  ((List.filter_sublist db).map (fun e => e.firmware_id)).nodup h

theorem updateAccessTime_map_fid (db : List CacheEntry) (fid : String) (now : Int) :
    (updateAccessTime db fid now).map (fun e => e.firmware_id) =
      db.map (fun e => e.firmware_id) := by
  unfold updateAccessTime
  rw [List.map_map]
  apply List.map_congr_left
  intro e _
  by_cases hf : e.firmware_id = fid
  · simp [hf]
  · simp [hf]

theorem mem_updateAccessTime (db : List CacheEntry) (fid : String) (now : Int)
    (e2 : CacheEntry) (h : e2 ∈ updateAccessTime db fid now) :
    ∃ e ∈ db, e2.firmware_id = e.firmware_id ∧ e2.local_path = e.local_path ∧
      e2.file_size = e.file_size ∧ e2.verified = e.verified := by
  unfold updateAccessTime at h
  rw [List.mem_map] at h
  obtain ⟨e, he, he2⟩ := h
  refine ⟨e, he, ?_⟩
  rw [← he2]
  by_cases hf : e.firmware_id = fid
  · simp [hf]
  · simp [hf]

theorem updateAccessTime_surj (db : List CacheEntry) (fid : String) (now : Int)
    (e : CacheEntry) (h : e ∈ db) :
    ∃ e2 ∈ updateAccessTime db fid now, e2.local_path = e.local_path := by
  unfold updateAccessTime
  refine ⟨_, List.mem_map.mpr ⟨e, h, rfl⟩, ?_⟩
  by_cases hf : e.firmware_id = fid
  · simp [hf]
  · simp [hf]

/-! ## Invariant preservation -/

/-- Pruning a stale row (selected by `get_cached_firmware_path` when its
file is missing) preserves the invariant. -/
theorem prune_preserves (s : CacheState) (fid : String) (e : CacheEntry)
    (hfind : s.db.find? (fun e => e.firmware_id == fid && e.verified) = some e)
    (hmiss : diskHas s.disk e.local_path = false)
    (hinv : cacheInv s) : cacheInv { s with db := removeFromCacheDb s.db fid } := by
  obtain ⟨hef, hown, huniq, hwf, hsz, hver, hdn⟩ := hinv
  have hemem : e ∈ s.db := List.mem_of_find?_eq_some hfind
  have hefid : e.firmware_id = fid := by
    have := List.find?_some hfind
    simp at this
    exact this.1
  refine ⟨?_, ?_, ?_, ?_, ?_, ?_, ?_⟩
  · intro e2 he2
    rw [mem_removeFromCacheDb] at he2
    exact hef e2 he2.1
  · intro p sz hp hin
    obtain ⟨e2, he2, hpe2⟩ := hown p sz hp hin
    refine ⟨e2, ?_, hpe2⟩
    rw [mem_removeFromCacheDb]
    refine ⟨he2, ?_⟩
    intro hc
    have he2e : e2 = e := nodupFid_eq huniq he2 hemem (by rw [hc, hefid])
    rw [he2e] at hpe2
    have hdp : diskHas s.disk p = true := (diskHas_iff_mem s.disk p).mpr ⟨sz, hp⟩
    rw [hpe2] at hmiss
    exact Bool.noConfusion (hdp.symm.trans hmiss)
  · exact nodupFid_removeFromCacheDb s.db fid huniq
  · intro e2 he2
    rw [mem_removeFromCacheDb] at he2
    exact hwf e2 he2.1
  · intro e2 he2
    rw [mem_removeFromCacheDb] at he2
    exact hsz e2 he2.1
  · intro e2 he2
    rw [mem_removeFromCacheDb] at he2
    exact hver e2 he2.1
  · exact hdn

/-- `get_cached_firmware_path` preserves the invariant. -/
theorem get_preserves (s : CacheState) (fid : String) (hinv : cacheInv s) :
    cacheInv (get_cached_firmware_path s fid).2.1 := by
  unfold get_cached_firmware_path
  rcases hfind : s.db.find? (fun e => e.firmware_id == fid && e.verified) with _ | e
  · rw [hfind]
    exact hinv
  · rw [hfind]
    dsimp only
    by_cases hdh : diskHas s.disk e.local_path = true
    · rw [if_pos hdh]
      exact hinv
    · rw [if_neg hdh]
      exact prune_preserves s fid e hfind (by simpa using hdh) hinv

/-- After a reported miss the working state holds no row for the id. -/
theorem get_miss_no_fid (s : CacheState) (fid : String) (hinv : cacheInv s)
    (hmiss : (get_cached_firmware_path s fid).1 = none) :
    ∀ e ∈ (get_cached_firmware_path s fid).2.1.db, e.firmware_id ≠ fid := by
  unfold get_cached_firmware_path at hmiss ⊢
  rcases hfind : s.db.find? (fun e => e.firmware_id == fid && e.verified) with _ | e
  · rw [hfind] at hmiss ⊢
    intro e he hc
    have hnone := List.find?_eq_none.mp hfind e he
    simp [hc, hinv.2.2.2.2.2.1 e he] at hnone
  · rw [hfind] at hmiss ⊢
    dsimp only at hmiss ⊢
    by_cases hdh : diskHas s.disk e.local_path = true
    · rw [if_pos hdh] at hmiss
      cases hmiss
    · rw [if_neg hdh]
      intro e2 he2
      rw [mem_removeFromCacheDb] at he2
      exact he2.2

theorem diskRemove_write_self (d : Disk) (p : FsPath) (sz : Nat) :
    diskRemove (diskWrite d p sz) p = diskRemove d p := by
  unfold diskRemove diskWrite
  rw [List.filter_append, List.filter_filter]
  have h1 : ([(p, sz)].filter (fun e => e.1 != p)) = [] := by simp
  rw [h1, List.append_nil]
  apply List.filter_congr
  intro x _
  simp

/-- On a miss with failing verification, the download run: no result, the
index untouched, the moved file deleted again, and the four filesystem
events after any prune event of the lookup. -/
theorem download_miss_failure (s : CacheState) (fid url : String)
    (content : List Nat) (tmpName : Nat) (now : Int)
    (hmiss : (get_cached_firmware_path s fid).1 = none)
    (hbad : verify_firmware_file content = false) :
    download_and_cache_firmware s fid url content tmpName now =
      (none,
       { db := (get_cached_firmware_path s fid).2.1.db,
         disk := diskRemove (diskRemove (get_cached_firmware_path s fid).2.1.disk
           (FsPath.tmp tmpName)) (FsPath.cache fid) },
       (get_cached_firmware_path s fid).2.2 ++
         [CacheEvent.writeTemp (FsPath.tmp tmpName),
          CacheEvent.moveToCache (FsPath.tmp tmpName) (FsPath.cache fid),
          CacheEvent.verifyFile (FsPath.cache fid) false,
          CacheEvent.removeFile (FsPath.cache fid)]) := by
  unfold download_and_cache_firmware
  rcases hg : get_cached_firmware_path s fid with ⟨res, s1, tr⟩
  rw [hg] at hmiss
  dsimp only at hmiss
  subst hmiss
  dsimp only
  rw [hbad]
  rw [if_neg (by simp)]
  rw [diskRemove_write_self, diskRemove_write_self]
  simp [List.append_assoc]

/-- On a miss with passing verification, the download run: the cache path
is returned, the fresh row is appended (the id was absent), the file sits
in the cache directory, and the events end with the index insert. -/
theorem download_miss_success (s : CacheState) (fid url : String)
    (content : List Nat) (tmpName : Nat) (now : Int) (hinv : cacheInv s)
    (hmiss : (get_cached_firmware_path s fid).1 = none)
    (hok : verify_firmware_file content = true) :
    download_and_cache_firmware s fid url content tmpName now =
      (some (FsPath.cache fid),
       { db := (get_cached_firmware_path s fid).2.1.db ++
           [newCacheEntry fid url content now],
         disk := diskWrite (diskRemove (get_cached_firmware_path s fid).2.1.disk
           (FsPath.tmp tmpName)) (FsPath.cache fid) content.length },
       (get_cached_firmware_path s fid).2.2 ++
         [CacheEvent.writeTemp (FsPath.tmp tmpName),
          CacheEvent.moveToCache (FsPath.tmp tmpName) (FsPath.cache fid),
          CacheEvent.verifyFile (FsPath.cache fid) true,
          CacheEvent.addDbEntry fid]) := by
  have hnofid := get_miss_no_fid s fid hinv hmiss
  unfold download_and_cache_firmware
  rcases hg : get_cached_firmware_path s fid with ⟨res, s1, tr⟩
  rw [hg] at hmiss hnofid
  dsimp only at hmiss hnofid
  subst hmiss
  dsimp only
  rw [hok]
  rw [if_pos rfl]
  rw [diskRemove_write_self]
  unfold addToCacheDb
  rw [removeFromCacheDb_noop s1.db fid hnofid]
  simp [List.append_assoc, newCacheEntry]

/-- On a hit, the download bumps access stats and returns the cached
path. -/
theorem download_hit (s : CacheState) (fid url : String) (content : List Nat)
    (tmpName : Nat) (now : Int) (p : FsPath)
    (hhit : (get_cached_firmware_path s fid).1 = some p) :
    download_and_cache_firmware s fid url content tmpName now =
      (some p,
       { db := updateAccessTime (get_cached_firmware_path s fid).2.1.db fid now,
         disk := (get_cached_firmware_path s fid).2.1.disk },
       (get_cached_firmware_path s fid).2.2 ++ [CacheEvent.bumpAccess fid]) := by
  unfold download_and_cache_firmware
  rcases hg : get_cached_firmware_path s fid with ⟨res, s1, tr⟩
  rw [hg] at hhit
  dsimp only at hhit
  subst hhit
  rfl

/-- The state after a failed verification keeps the invariant. -/
theorem download_failure_inv (s1 : CacheState) (fid : String) (tmpName : Nat)
    (hinv : cacheInv s1) (hnofid : ∀ e ∈ s1.db, e.firmware_id ≠ fid) :
    cacheInv { db := s1.db,
               disk := diskRemove (diskRemove s1.disk (FsPath.tmp tmpName))
                 (FsPath.cache fid) } := by
  obtain ⟨hef, hown, huniq, hwf, hsz, hver, hdn⟩ := hinv
  have hpath : ∀ e ∈ s1.db, e.local_path ≠ FsPath.cache fid ∧
      e.local_path ≠ FsPath.tmp tmpName := by
    intro e he
    rw [hwf e he]
    exact ⟨by simpa using hnofid e he, by simp⟩
  refine ⟨?_, ?_, huniq, hwf, ?_, hver, ?_⟩
  · intro e he
    obtain ⟨hne1, hne2⟩ := hpath e he
    rw [diskHas_remove_ne _ _ _ hne1, diskHas_remove_ne _ _ _ hne2]
    exact hef e he
  · intro p sz hp hin
    obtain ⟨hp1, _⟩ := mem_diskRemove _ _ _ _ hp
    obtain ⟨hp2, _⟩ := mem_diskRemove _ _ _ _ hp1
    exact hown p sz hp2 hin
  · intro e he
    obtain ⟨hne1, hne2⟩ := hpath e he
    rw [diskSizeAt_remove_ne _ _ _ hne1, diskSizeAt_remove_ne _ _ _ hne2]
    exact hsz e he
  · exact keys_nodup_diskRemove _ _ (keys_nodup_diskRemove _ _ hdn)

/-- The state after a successful verification keeps the invariant. -/
theorem download_success_inv (s1 : CacheState) (fid url : String)
    (content : List Nat) (tmpName : Nat) (now : Int)
    (hinv : cacheInv s1) (hnofid : ∀ e ∈ s1.db, e.firmware_id ≠ fid) :
    cacheInv { db := s1.db ++ [newCacheEntry fid url content now],
               disk := diskWrite (diskRemove s1.disk (FsPath.tmp tmpName))
                 (FsPath.cache fid) content.length } := by
  obtain ⟨hef, hown, huniq, hwf, hsz, hver, hdn⟩ := hinv
  have hpath : ∀ e ∈ s1.db, e.local_path ≠ FsPath.cache fid ∧
      e.local_path ≠ FsPath.tmp tmpName := by
    intro e he
    rw [hwf e he]
    exact ⟨by simpa using hnofid e he, by simp⟩
  refine ⟨?_, ?_, ?_, ?_, ?_, ?_, ?_⟩
  · intro e he
    rcases List.mem_append.mp he with he1 | he1
    · obtain ⟨hne1, hne2⟩ := hpath e he1
      rw [diskHas_write_ne _ _ _ _ hne1, diskHas_remove_ne _ _ _ hne2]
      exact hef e he1
    · have : e = newCacheEntry fid url content now := by simpa using he1
      rw [this]
      exact diskHas_write_self _ _ _
  · intro p sz hp hin
    rcases mem_diskWrite _ _ _ _ _ hp with ⟨hpd, _⟩ | ⟨hp1, hpne⟩
    · exact ⟨newCacheEntry fid url content now, by simp, by rw [hpd]; rfl⟩
    · obtain ⟨hp2, _⟩ := mem_diskRemove _ _ _ _ hp1
      obtain ⟨e2, he2, hpe2⟩ := hown p sz hp2 hin
      exact ⟨e2, List.mem_append_left _ he2, hpe2⟩
  · unfold uniqueFid
    dsimp only
    rw [List.map_append, List.nodup_append]
    refine ⟨huniq, by simp, ?_⟩
    intro x hx
    simp only [List.map_cons, List.map_nil, List.mem_singleton]
    rw [List.mem_map] at hx
    obtain ⟨e, he, hxe⟩ := hx
    rw [← hxe]
    exact hnofid e he
  · intro e he
    rcases List.mem_append.mp he with he1 | he1
    · exact hwf e he1
    · have : e = newCacheEntry fid url content now := by simpa using he1
      rw [this]
      rfl
  · intro e he
    rcases List.mem_append.mp he with he1 | he1
    · obtain ⟨hne1, hne2⟩ := hpath e he1
      rw [diskSizeAt_write_ne _ _ _ _ hne1, diskSizeAt_remove_ne _ _ _ hne2]
      exact hsz e he1
    · have : e = newCacheEntry fid url content now := by simpa using he1
      rw [this]
      exact diskSizeAt_write_self _ _ _
  · intro e he
    rcases List.mem_append.mp he with he1 | he1
    · exact hver e he1
    · have : e = newCacheEntry fid url content now := by simpa using he1
      rw [this]
      rfl
  · exact keys_nodup_diskWrite _ _ _ (keys_nodup_diskRemove _ _ hdn)

/-- The state after a cache hit keeps the invariant. -/
theorem hit_state_inv (s1 : CacheState) (fid : String) (now : Int)
    (hinv : cacheInv s1) :
    cacheInv { db := updateAccessTime s1.db fid now, disk := s1.disk } := by
  obtain ⟨hef, hown, huniq, hwf, hsz, hver, hdn⟩ := hinv
  refine ⟨?_, ?_, ?_, ?_, ?_, ?_, hdn⟩
  · intro e2 he2
    obtain ⟨e, he, _, hp, _, _⟩ := mem_updateAccessTime _ _ _ _ he2
    rw [hp]
    exact hef e he
  · intro p sz hp hin
    obtain ⟨e, he, hpe⟩ := hown p sz hp hin
    obtain ⟨e2, he2, hpe2⟩ := updateAccessTime_surj s1.db fid now e he
    exact ⟨e2, he2, by rw [hpe2, hpe]⟩
  · unfold uniqueFid at huniq ⊢
    dsimp only
    rw [updateAccessTime_map_fid]
    exact huniq
  · intro e2 he2
    obtain ⟨e, he, hfid, hp, _, _⟩ := mem_updateAccessTime _ _ _ _ he2
    rw [hp, hfid]
    exact hwf e he
  · intro e2 he2
    obtain ⟨e, he, _, hp, hfs, _⟩ := mem_updateAccessTime _ _ _ _ he2
    rw [hp, hfs]
    exact hsz e he
  · intro e2 he2
    obtain ⟨e, he, _, _, _, hv⟩ := mem_updateAccessTime _ _ _ _ he2
    rw [hv]
    exact hver e he

/-- `download_and_cache_firmware` preserves the invariant. -/
theorem download_preserves (s : CacheState) (fid url : String)
    (content : List Nat) (tmpName : Nat) (now : Int) (hinv : cacheInv s) :
    cacheInv (download_and_cache_firmware s fid url content tmpName now).2.1 := by
  have hinv1 := get_preserves s fid hinv
  cases hres : (get_cached_firmware_path s fid).1 with
  | some p =>
      rw [download_hit s fid url content tmpName now p hres]
      exact hit_state_inv _ fid now hinv1
  | none =>
      have hnofid := get_miss_no_fid s fid hinv hres
      cases hok : verify_firmware_file content with
      | false =>
          rw [download_miss_failure s fid url content tmpName now hres hok]
          exact download_failure_inv _ fid tmpName hinv1 hnofid
      | true =>
          rw [download_miss_success s fid url content tmpName now hinv hres hok]
          exact download_success_inv _ fid url content tmpName now hinv1 hnofid

/-- A firmware-shaped payload passes `_verify_firmware_file`. -/
theorem verify_blob (n : Nat) (h : 99996 ≤ n) :
    verify_firmware_file (blob n) = true := by
  unfold verify_firmware_file
  rw [blob_length]
  rw [if_neg (by omega)]
  dsimp only
  have ht : ((blob n).take 16).take 4 = [233, 0, 0, 0] := rfl
  rw [ht]
  rw [if_pos (by decide)]

theorem zblob_length (n : Nat) : (zblob n).length = n + 4 := by
  simp only [zblob, List.length_cons, List.length_replicate]

/-- A correctly sized payload with an all-zero header fails
`_verify_firmware_file` on the magic check alone. -/
theorem verify_zblob (n : Nat) (h : 99996 ≤ n) :
    verify_firmware_file (zblob n) = false := by
  unfold verify_firmware_file
  rw [zblob_length]
  rw [if_neg (by omega)]
  dsimp only
  have ht : ((zblob n).take 16).take 4 = [0, 0, 0, 0] := rfl
  rw [ht]
  rw [if_neg (by decide)]
  have hd : ((zblob n).take 16).getD 0 0 = 0 := rfl
  rw [hd]
  rw [if_neg (by decide)]

/-- C3 (amended): on a cache miss, the streamed file is moved into the
cache directory and only then verified (the move precedes verification,
not the other way around as the spec states); a `CacheEntry` appears
exactly on verification success, and on failure the already-moved file is
deleted so no artifact survives. -/
theorem download_moves_then_verifies (s : CacheState) (fid url : String)
    (content : List Nat) (tmpName : Nat) (now : Int) (hinv : cacheInv s)
    (hmiss : (get_cached_firmware_path s fid).1 = none) :
    (download_and_cache_firmware s fid url content tmpName now).2.2 =
      (get_cached_firmware_path s fid).2.2 ++
        [CacheEvent.writeTemp (FsPath.tmp tmpName),
         CacheEvent.moveToCache (FsPath.tmp tmpName) (FsPath.cache fid),
         CacheEvent.verifyFile (FsPath.cache fid) (verify_firmware_file content)] ++
        (if verify_firmware_file content then [CacheEvent.addDbEntry fid]
         else [CacheEvent.removeFile (FsPath.cache fid)]) ∧
    (verify_firmware_file content = true →
      (download_and_cache_firmware s fid url content tmpName now).1 =
        some (FsPath.cache fid) ∧
      ∃ e ∈ (download_and_cache_firmware s fid url content tmpName now).2.1.db,
        e.firmware_id = fid ∧ e.local_path = FsPath.cache fid ∧
        diskHas (download_and_cache_firmware s fid url content tmpName now).2.1.disk
          (FsPath.cache fid) = true) ∧
    (verify_firmware_file content = false →
      (download_and_cache_firmware s fid url content tmpName now).1 = none ∧
      (∀ e ∈ (download_and_cache_firmware s fid url content tmpName now).2.1.db,
        e.firmware_id ≠ fid) ∧
      diskHas (download_and_cache_firmware s fid url content tmpName now).2.1.disk
        (FsPath.cache fid) = false) := by
  cases hok : verify_firmware_file content with
  | true =>
      rw [download_miss_success s fid url content tmpName now hinv hmiss hok]
      refine ⟨by simp, ?_, ?_⟩
      · intro _
        exact ⟨rfl, newCacheEntry fid url content now, by simp, rfl, rfl,
          diskHas_write_self _ _ _⟩
      · intro hc
        exact absurd hc (by simp)
  | false =>
      rw [download_miss_failure s fid url content tmpName now hmiss hok]
      refine ⟨by simp, ?_, ?_⟩
      · intro hc
        exact absurd hc (by simp)
      · intro _
        exact ⟨rfl, get_miss_no_fid s fid hinv hmiss, diskHas_remove_self _ _⟩

/-- Witness for C3 (amended): a fresh download of a valid ESP32 image into
an empty cache. -/
theorem download_moves_then_verifies_witness :
    cacheInv { db := [], disk := [] } ∧
    (get_cached_firmware_path { db := [], disk := [] } "fw1").1 = none ∧
    ((download_and_cache_firmware { db := [], disk := [] } "fw1" "u"
        (blob 99996) 0 5).2.2 =
      (get_cached_firmware_path { db := [], disk := [] } "fw1").2.2 ++
        [CacheEvent.writeTemp (FsPath.tmp 0),
         CacheEvent.moveToCache (FsPath.tmp 0) (FsPath.cache "fw1"),
         CacheEvent.verifyFile (FsPath.cache "fw1")
           (verify_firmware_file (blob 99996))] ++
        (if verify_firmware_file (blob 99996) then [CacheEvent.addDbEntry "fw1"]
         else [CacheEvent.removeFile (FsPath.cache "fw1")]) ∧
    (verify_firmware_file (blob 99996) = true →
      (download_and_cache_firmware { db := [], disk := [] } "fw1" "u"
          (blob 99996) 0 5).1 = some (FsPath.cache "fw1") ∧
      ∃ e ∈ (download_and_cache_firmware { db := [], disk := [] } "fw1" "u"
          (blob 99996) 0 5).2.1.db,
        e.firmware_id = "fw1" ∧ e.local_path = FsPath.cache "fw1" ∧
        diskHas (download_and_cache_firmware { db := [], disk := [] } "fw1" "u"
            (blob 99996) 0 5).2.1.disk (FsPath.cache "fw1") = true) ∧
    (verify_firmware_file (blob 99996) = false →
      (download_and_cache_firmware { db := [], disk := [] } "fw1" "u"
          (blob 99996) 0 5).1 = none ∧
      (∀ e ∈ (download_and_cache_firmware { db := [], disk := [] } "fw1" "u"
          (blob 99996) 0 5).2.1.db, e.firmware_id ≠ "fw1") ∧
      diskHas (download_and_cache_firmware { db := [], disk := [] } "fw1" "u"
          (blob 99996) 0 5).2.1.disk (FsPath.cache "fw1") = false)) := by
  have hinv : cacheInv { db := [], disk := [] } := by
    refine ⟨?_, ?_, ?_, ?_, ?_, ?_, ?_⟩ <;>
      simp [entryFileExists, cacheFilesOwned, uniqueFid, pathsWF, sizesAgree,
        allVerified, diskKeysNodup]
  exact ⟨hinv, rfl,
    download_moves_then_verifies { db := [], disk := [] } "fw1" "u"
      (blob 99996) 0 5 hinv rfl⟩

/-- C3 counterexample: a concrete failing download whose event trace moves
the file into the cache directory strictly before the verification event —
refuting "the move into the cache directory never precedes
verification". -/
theorem download_move_precedes_verify_counterexample :
    moveOnlyAfterVerify
      (download_and_cache_firmware { db := [], disk := [] } "fw1" "u"
        [0, 1, 2] 0 0).2.2 = false ∧
    (download_and_cache_firmware { db := [], disk := [] } "fw1" "u"
        [0, 1, 2] 0 0).2.2 =
      [CacheEvent.writeTemp (FsPath.tmp 0),
       CacheEvent.moveToCache (FsPath.tmp 0) (FsPath.cache "fw1"),
       CacheEvent.verifyFile (FsPath.cache "fw1") false,
       CacheEvent.removeFile (FsPath.cache "fw1")] := by
  constructor
  · decide
  · decide

/-- C4: a downloaded payload that passes the size floor but carries no
known magic is reported as a miss, leaves no index row for the id, and no
file survives — neither at the cache path nor at the temp path. -/
theorem wrong_header_leaves_no_artifact (s : CacheState) (fid url : String)
    (content : List Nat) (tmpName : Nat) (now : Int) (hinv : cacheInv s)
    (hmiss : (get_cached_firmware_path s fid).1 = none)
    (hsize : 100000 ≤ content.length)
    (hbad : verify_firmware_file content = false) :
    (download_and_cache_firmware s fid url content tmpName now).1 = none ∧
    (∀ e ∈ (download_and_cache_firmware s fid url content tmpName now).2.1.db,
      e.firmware_id ≠ fid) ∧
    diskHas (download_and_cache_firmware s fid url content tmpName now).2.1.disk
      (FsPath.cache fid) = false ∧
    diskHas (download_and_cache_firmware s fid url content tmpName now).2.1.disk
      (FsPath.tmp tmpName) = false := by
  rw [download_miss_failure s fid url content tmpName now hmiss hbad]
  refine ⟨rfl, ?_, ?_, ?_⟩
  · exact get_miss_no_fid s fid hinv hmiss
  · exact diskHas_remove_self _ _
  · rw [diskHas_remove_ne _ _ _ (by simp)]
    exact diskHas_remove_self _ _

/-- Witness for C4: a 100000-byte zero-headed payload into an empty
cache. -/
theorem wrong_header_leaves_no_artifact_witness :
    cacheInv { db := [], disk := [] } ∧
    (get_cached_firmware_path { db := [], disk := [] } "fw1").1 = none ∧
    100000 ≤ (zblob 99996).length ∧
    verify_firmware_file (zblob 99996) = false ∧
    ((download_and_cache_firmware { db := [], disk := [] } "fw1" "u"
        (zblob 99996) 0 5).1 = none ∧
    (∀ e ∈ (download_and_cache_firmware { db := [], disk := [] } "fw1" "u"
        (zblob 99996) 0 5).2.1.db, e.firmware_id ≠ "fw1") ∧
    diskHas (download_and_cache_firmware { db := [], disk := [] } "fw1" "u"
        (zblob 99996) 0 5).2.1.disk (FsPath.cache "fw1") = false ∧
    diskHas (download_and_cache_firmware { db := [], disk := [] } "fw1" "u"
        (zblob 99996) 0 5).2.1.disk (FsPath.tmp 0) = false) := by
  have hinv : cacheInv { db := [], disk := [] } := by
    refine ⟨?_, ?_, ?_, ?_, ?_, ?_, ?_⟩ <;>
      simp [entryFileExists, cacheFilesOwned, uniqueFid, pathsWF, sizesAgree,
        allVerified, diskKeysNodup]
  have hsize : 100000 ≤ (zblob 99996).length := by rw [zblob_length]
  have hbad : verify_firmware_file (zblob 99996) = false := verify_zblob 99996 (by omega)
  exact ⟨hinv, rfl, hsize, hbad,
    wrong_header_leaves_no_artifact { db := [], disk := [] } "fw1" "u"
      (zblob 99996) 0 5 hinv rfl hsize hbad⟩

/-! ## Eviction -/

/-- Removing one entry together with its file keeps the invariant. -/
theorem evict_step_inv (s : CacheState) (e : CacheEntry) (hedb : e ∈ s.db)
    (hinv : cacheInv s) :
    cacheInv { db := removeFromCacheDb s.db e.firmware_id,
               disk := diskRemove s.disk e.local_path } := by
  obtain ⟨hef, hown, huniq, hwf, hsz, hver, hdn⟩ := hinv
  have hpath : ∀ e2 ∈ s.db, e2.firmware_id ≠ e.firmware_id →
      e2.local_path ≠ e.local_path := by
    intro e2 he2 hfid hc
    exact hfid (by
      have h1 := hwf e2 he2
      have h2 := hwf e hedb
      rw [h1, h2] at hc
      simpa using hc)
  refine ⟨?_, ?_, ?_, ?_, ?_, ?_, ?_⟩
  · intro e2 he2
    rw [mem_removeFromCacheDb] at he2
    rw [diskHas_remove_ne _ _ _ (hpath e2 he2.1 he2.2)]
    exact hef e2 he2.1
  · intro p sz hp hin
    obtain ⟨hp1, hpne⟩ := mem_diskRemove _ _ _ _ hp
    obtain ⟨e2, he2, hpe2⟩ := hown p sz hp1 hin
    refine ⟨e2, ?_, hpe2⟩
    rw [mem_removeFromCacheDb]
    refine ⟨he2, ?_⟩
    intro hc
    have : e2 = e := nodupFid_eq huniq he2 hedb hc
    rw [this] at hpe2
    exact hpne hpe2.symm
  · exact nodupFid_removeFromCacheDb _ _ huniq
  · intro e2 he2
    rw [mem_removeFromCacheDb] at he2
    exact hwf e2 he2.1
  · intro e2 he2
    rw [mem_removeFromCacheDb] at he2
    rw [diskSizeAt_remove_ne _ _ _ (hpath e2 he2.1 he2.2)]
    exact hsz e2 he2.1
  · intro e2 he2
    rw [mem_removeFromCacheDb] at he2
    exact hver e2 he2.1
  · exact keys_nodup_diskRemove _ _ hdn

/-- The eviction loop never adds index rows. -/
theorem cleanupLoop_db_subset (currentSize : Nat) (cs : List CacheEntry) :
    ∀ (s : CacheState) (removed : Nat) (tr : List CacheEvent),
    ∀ e ∈ (cleanupLoop currentSize cs s removed tr).1.db, e ∈ s.db := by
  induction cs with
  | nil => intro s removed tr e he; exact he
  | cons c rest ih =>
      intro s removed tr e he
      unfold cleanupLoop at he
      by_cases hbreak : 10 * ((currentSize : Int) - (removed : Int)) <
          7 * (maxCacheSize : Int)
      · rw [if_pos hbreak] at he
        exact he
      · rw [if_neg hbreak] at he
        have := ih _ _ _ e he
        rw [mem_removeFromCacheDb] at this
        exact this.1

/-- Main specification of the eviction loop: it keeps the invariant,
tracks the removed bytes exactly, and stops either under the 70% target or
after consuming every candidate. -/
theorem cleanupLoop_spec (currentSize : Nat) (cs : List CacheEntry) :
    ∀ (s : CacheState) (removed : Nat) (tr : List CacheEvent),
    cacheInv s →
    (∀ c ∈ cs, c ∈ s.db) →
    ((cs.map (fun e => e.firmware_id)).Nodup) →
    (cacheDirSize s.disk + removed = currentSize) →
    cacheInv (cleanupLoop currentSize cs s removed tr).1 ∧
    cacheDirSize (cleanupLoop currentSize cs s removed tr).1.disk +
      (cleanupLoop currentSize cs s removed tr).2.1 = currentSize ∧
    (10 * ((currentSize : Int) -
        ((cleanupLoop currentSize cs s removed tr).2.1 : Int)) <
        7 * (maxCacheSize : Int) ∨
      ∀ c ∈ cs, ∀ e ∈ (cleanupLoop currentSize cs s removed tr).1.db,
        e.firmware_id ≠ c.firmware_id) := by
  induction cs with
  | nil =>
      intro s removed tr hinv _ _ hsize
      exact ⟨hinv, hsize, Or.inr (by simp)⟩
  | cons c rest ih =>
      intro s removed tr hinv hsub hnd hsize
      unfold cleanupLoop
      by_cases hbreak : 10 * ((currentSize : Int) - (removed : Int)) <
          7 * (maxCacheSize : Int)
      · rw [if_pos hbreak]
        exact ⟨hinv, hsize, Or.inl hbreak⟩
      · rw [if_neg hbreak]
        have hcdb : c ∈ s.db := hsub c (List.mem_cons_self c rest)
        have hhas : diskHas s.disk c.local_path = true := hinv.1 c hcdb
        rw [if_pos hhas]
        have hnd2 : ((rest.map (fun e => e.firmware_id)).Nodup) :=
          (List.nodup_cons.mp hnd).2
        have hcne : ∀ x ∈ rest, x.firmware_id ≠ c.firmware_id := by
          intro x hx hc
          exact (List.nodup_cons.mp hnd).1
            (List.mem_map.mpr ⟨x, hx, hc⟩)
        have hinv2 := evict_step_inv s c hcdb hinv
        have hsub2 : ∀ x ∈ rest,
            x ∈ (removeFromCacheDb s.db c.firmware_id) := by
          intro x hx
          rw [mem_removeFromCacheDb]
          exact ⟨hsub x (List.mem_cons_of_mem c hx), hcne x hx⟩
        have hmem : (c.local_path, c.file_size) ∈ s.disk := by
          obtain ⟨sz, hszmem⟩ := (diskHas_iff_mem s.disk c.local_path).mp hhas
          have h1 : diskSizeAt s.disk c.local_path = sz :=
            diskSizeAt_of_mem _ _ _ hinv.2.2.2.2.2.2 hszmem
          have h2 : diskSizeAt s.disk c.local_path = c.file_size :=
            hinv.2.2.2.2.1 c hcdb
          rw [h1.symm.trans h2] at hszmem
          exact hszmem
        have hin : c.local_path.inCacheDir = true := by
          rw [hinv.2.2.2.1 c hcdb]
          rfl
        have hsize2 : cacheDirSize (diskRemove s.disk c.local_path) +
            (removed + c.file_size) = currentSize := by
          have := cacheDirSize_remove s.disk c.local_path c.file_size
            hinv.2.2.2.2.2.2 hmem hin
          omega
        obtain ⟨ih1, ih2, ih3⟩ := ih
          ⟨removeFromCacheDb s.db c.firmware_id, diskRemove s.disk c.local_path⟩
          (removed + c.file_size)
          (tr ++ [CacheEvent.removeFile c.local_path,
            CacheEvent.pruneDbEntry c.firmware_id])
          hinv2 hsub2 hnd2 hsize2
        refine ⟨ih1, ih2, ?_⟩
        rcases ih3 with h | h
        · exact Or.inl h
        · refine Or.inr ?_
          intro x hx e2 he2
          rcases List.mem_cons.mp hx with hxc | hxr
          · rw [hxc]
            have := cleanupLoop_db_subset currentSize rest _ _ _ e2 he2
            rw [mem_removeFromCacheDb] at this
            exact this.2
          · exact h x hxr e2 he2

/-- The eligible candidates keep at most one row per id. -/
theorem cleanupCandidates_nodup (db : List CacheEntry) (cutoff : Int)
    (h : (db.map (fun e => e.firmware_id)).Nodup) :
    ((cleanupCandidates db cutoff).map (fun e => e.firmware_id)).Nodup := by
  unfold cleanupCandidates
  have hperm := List.mergeSort_perm (db.filter (evictionEligible cutoff)) candidateLE
  have h2 : ((db.filter (evictionEligible cutoff)).map
      (fun e => e.firmware_id)).Nodup :=
    ((List.filter_sublist db).map (fun e => e.firmware_id)).nodup h
  exact ((hperm.map (fun e => e.firmware_id)).nodup_iff).mpr h2

theorem mem_cleanupCandidates (db : List CacheEntry) (cutoff : Int)
    (c : CacheEntry) (h : c ∈ cleanupCandidates db cutoff) : c ∈ db := by
  unfold cleanupCandidates at h
  rw [List.mem_mergeSort, List.mem_filter] at h
  exact h.1

/-- `cleanup_cache` preserves the invariant. -/
theorem cleanup_preserves (s : CacheState) (force : Bool) (now : Int)
    (hinv : cacheInv s) : cacheInv (cleanup_cache s force now).1 := by
  unfold cleanup_cache
  dsimp only
  split
  · exact hinv
  · exact (cleanupLoop_spec (cacheDirSize s.disk)
      (cleanupCandidates s.db (now - cacheRetentionSeconds)) s 0 [] hinv
      (fun c hc => mem_cleanupCandidates _ _ c hc)
      (cleanupCandidates_nodup s.db _ hinv.2.2.1) (by omega)).1

/-- C2: forced cleanup — a total function, hence terminating — returns a
state whose cache directory holds strictly less than 70% of the 2 GiB
ceiling (so at most 1.4 GiB; the comparison models the float test
`current_size - removed_size < max_cache_size * 0.7` exactly), unless every
eligible candidate (30-day-stale `last_accessed` or zero `download_count`)
has been evicted.  Instantiating with any 1.9 GiB state gives the claim's
scenario. -/
theorem cleanup_force_bound (s : CacheState) (now : Int) (hinv : cacheInv s) :
    10 * cacheDirSize (cleanup_cache s true now).1.disk < 7 * maxCacheSize ∨
    ∀ c ∈ cleanupCandidates s.db (now - cacheRetentionSeconds),
      ∀ e ∈ (cleanup_cache s true now).1.db, e.firmware_id ≠ c.firmware_id := by
  obtain ⟨_, hsz, hd⟩ := cleanupLoop_spec (cacheDirSize s.disk)
    (cleanupCandidates s.db (now - cacheRetentionSeconds)) s 0 [] hinv
    (fun c hc => mem_cleanupCandidates _ _ c hc)
    (cleanupCandidates_nodup s.db _ hinv.2.2.1) (by omega)
  have hstate : cleanup_cache s true now =
      ((cleanupLoop (cacheDirSize s.disk)
          (cleanupCandidates s.db (now - cacheRetentionSeconds)) s 0 []).1,
       (cleanupLoop (cacheDirSize s.disk)
          (cleanupCandidates s.db (now - cacheRetentionSeconds)) s 0 []).2.2) := by
    unfold cleanup_cache
    rw [if_neg (by simp)]
  rw [hstate]
  dsimp only
  rcases hd with h | h
  · left
    omega
  · exact Or.inr h

/-- Witness for C2: a 1.9 GiB cache (two 1020054733-byte stale files) under
the 2 GiB ceiling, cleaned up with force. -/
theorem cleanup_force_bound_witness :
    cacheInv s19 ∧
    (10 * cacheDirSize (cleanup_cache s19 true 2592001).1.disk <
        7 * maxCacheSize ∨
      ∀ c ∈ cleanupCandidates s19.db (2592001 - cacheRetentionSeconds),
        ∀ e ∈ (cleanup_cache s19 true 2592001).1.db,
          e.firmware_id ≠ c.firmware_id) := by
  have hinv : cacheInv s19 := by
    refine ⟨?_, ?_, ?_, ?_, ?_, ?_, ?_⟩
    · unfold entryFileExists
      decide
    · intro p sz hp _
      unfold s19 at hp
      simp only [List.mem_cons, List.not_mem_nil, or_false] at hp
      rcases hp with hp | hp
      · injection hp with h1 _
        subst h1
        exact ⟨e19a, by simp [s19], rfl⟩
      · injection hp with h1 _
        subst h1
        exact ⟨e19b, by simp [s19], rfl⟩
    · unfold uniqueFid
      decide
    · unfold pathsWF
      decide
    · unfold sizesAgree
      decide
    · unfold allVerified
      decide
    · unfold diskKeysNodup
      decide
  exact ⟨hinv, cleanup_force_bound s19 2592001 hinv⟩

/-- One cache operation preserves the invariant. -/
theorem applyOp_preserves (s : CacheState) (op : CacheOp) (hinv : cacheInv s) :
    cacheInv (applyOp s op) := by
  cases op with
  | download fid url content tmpName now =>
      exact download_preserves s fid url content tmpName now hinv
  | get fid => exact get_preserves s fid hinv
  | cleanup force now => exact cleanup_preserves s force now hinv

/-- C1: across every sequence of `downloadAndCache` / `get` / `cleanup`
operations, between operations every `CacheEntry` row points at an
existing file, every cache-directory file is owned by a row, and there is
at most one row per firmware id (together with the auxiliary invariants
that make this inductive: rows are verified, sizes agree with the disk,
paths are the id-derived cache paths). -/
theorem cache_entry_iff_file_invariant (ops : List CacheOp) (s : CacheState)
    (hinv : cacheInv s) :
    entryFileExists (applyOps s ops) ∧ cacheFilesOwned (applyOps s ops) ∧
    uniqueFid (applyOps s ops) ∧ cacheInv (applyOps s ops) := by
  have main : cacheInv (applyOps s ops) := by
    unfold applyOps
    induction ops generalizing s with
    | nil => exact hinv
    | cons op rest ihop =>
        rw [List.foldl_cons]
        exact ihop (applyOp s op) (applyOp_preserves s op hinv)
  exact ⟨main.1, main.2.1, main.2.2.1, main⟩

/-- Witness for C1: a download, a lookup and a forced cleanup run from the
empty state. -/
theorem cache_entry_iff_file_invariant_witness :
    cacheInv { db := [], disk := [] } ∧
    (entryFileExists (applyOps { db := [], disk := [] }
        [CacheOp.download "a" "u" [1, 2] 0 0, CacheOp.get "a",
         CacheOp.cleanup true 99]) ∧
      cacheFilesOwned (applyOps { db := [], disk := [] }
        [CacheOp.download "a" "u" [1, 2] 0 0, CacheOp.get "a",
         CacheOp.cleanup true 99]) ∧
      uniqueFid (applyOps { db := [], disk := [] }
        [CacheOp.download "a" "u" [1, 2] 0 0, CacheOp.get "a",
         CacheOp.cleanup true 99]) ∧
      cacheInv (applyOps { db := [], disk := [] }
        [CacheOp.download "a" "u" [1, 2] 0 0, CacheOp.get "a",
         CacheOp.cleanup true 99])) := by
  have hinv : cacheInv { db := [], disk := [] } := by
    refine ⟨?_, ?_, ?_, ?_, ?_, ?_, ?_⟩ <;>
      simp [entryFileExists, cacheFilesOwned, uniqueFid, pathsWF, sizesAgree,
        allVerified, diskKeysNodup]
  exact ⟨hinv, cache_entry_iff_file_invariant
    [CacheOp.download "a" "u" [1, 2] 0 0, CacheOp.get "a",
     CacheOp.cleanup true 99] { db := [], disk := [] } hinv⟩

end Tasmotic
